import Mathlib

/-!
STM32_LOG_Ultra: the log filter and dispatcher of `Bsp/log_ultra.h` and
`Bsp/log_ultra.c`.

A shallow embedding of the logging module.  The four globals of `log_ultra.c`
become the fields of `Globals`; everything the module does to the outside
world (starting the RTT transport, printing over RTT, calling the installed
callback) is appended to a trace of `Effect`s, so that "the sink was invoked
once, with these arguments" is a statement about a list.

Conventions for machine integers:
* `uint32_t` values are `Nat`s below `2 ^ 32`, `uint16_t` below `2 ^ 16`,
  `uint8_t` below `2 ^ 8`; every conversion C performs is an explicit `%`;
* `int32_t` values are `Int`s; the conversion of an out-of-range unsigned
  value to `int32_t` is two's complement wrap (`toInt32`);
* the macros `__LOG` / `__LOG_XB` are textual.  `__LOG_expand` and
  `__LOG_XB_expand` take the `source` and `level` arguments as the expressions
  the caller wrote (`CExpr`), splice them into the macro body the way the C
  grammar does, and evaluate the result with the usual arithmetic conversions.
  `__LOG` and `__LOG_XB` are the same macros at the call sites whose `source`
  and `level` are single operands of signed type, given by their values (the
  constants meant for them, `LOG_SRC_*` and `LOG_LEVEL_*`, are such operands);
  `__LOG_expand_operands` and `__LOG_XB_expand_operands` relate the two.
-/

namespace LogUltra

/-! ## Machine integers -/

/-- Conversion of an integer to `uint32_t`. -/
def toU32 (x : Int) : Nat := (x % 2 ^ 32).toNat

/-- Conversion of an integer to `uint16_t`. -/
def toU16 (x : Int) : Nat := (x % 2 ^ 16).toNat

/-- Conversion of a `uint32_t` to `int32_t` (two's complement). -/
def toInt32 (n : Nat) : Int :=
  if n % 2 ^ 32 < 2 ^ 31 then ((n % 2 ^ 32 : Nat) : Int) else ((n % 2 ^ 32 : Nat) : Int) - 2 ^ 32

/-! ## Constants of `log_ultra.h` -/

def LOG_ARRAY_LEN_MAX : Nat := 128

def LOG_SRC_APP_1 : Int := 1 <<< 0
def LOG_SRC_APP_2 : Int := 1 <<< 1
def LOG_SRC_APP_3 : Int := 1 <<< 2

def LOG_GROUP_STACK : Int := Int.lor LOG_SRC_APP_1 LOG_SRC_APP_2

def LOG_LEVEL_ASSERT : Int := 0
def LOG_LEVEL_ERROR : Int := 1
def LOG_LEVEL_WARN : Int := 2
def LOG_LEVEL_REPORT : Int := 3
def LOG_LEVEL_INFO : Int := 4
def LOG_LEVEL_DBG1 : Int := 5
def LOG_LEVEL_DBG2 : Int := 4
def LOG_LEVEL_DBG3 : Int := 7
def EVT_LEVEL_BASE : Int := 8
def EVT_LEVEL_ERROR : Int := 9
def EVT_LEVEL_INFO : Int := 10
def EVT_LEVEL_DATA : Int := 11

def LOG_LEVEL_DEFAULT : Int := LOG_LEVEL_WARN
def LOG_MSK_DEFAULT : Int := LOG_GROUP_STACK

/-- The named levels in the order the header lists them, most urgent first. -/
def namedLevels : List Int :=
  [LOG_LEVEL_ASSERT, LOG_LEVEL_ERROR, LOG_LEVEL_WARN, LOG_LEVEL_REPORT, LOG_LEVEL_INFO,
   LOG_LEVEL_DBG1, LOG_LEVEL_DBG2, LOG_LEVEL_DBG3, EVT_LEVEL_BASE, EVT_LEVEL_ERROR,
   EVT_LEVEL_INFO, EVT_LEVEL_DATA]

/-- The table `g_log_hex_digits` of `log_ultra.c`. -/
def g_log_hex_digits : List Char := "0123456789ABCDEF".toList

/-! ## Data model -/

/-- One variadic argument, as the callee sees it. -/
inductive Arg where
  /-- An integer argument. -/
  | int (v : Int)
  /-- A `const char *` to a constant string: the string. -/
  | str (s : String)
  /-- A `char *` into a character array: the contents of the whole array. -/
  | buf (b : List Char)
  deriving DecidableEq, Repr

/-- A value of type `log_callback_t` other than `NULL`. -/
inductive log_callback_t where
  /-- The function `log_callback_rtt` of `log_ultra.c`. -/
  | log_callback_rtt
  /-- A function of the embedding application, named by its address.  It is
  external code: it is taken not to touch the globals of the logger. -/
  | user (addr : Nat)
  deriving DecidableEq, Repr

def LOG_CALLBACK_DEFAULT : Option log_callback_t := some log_callback_t.log_callback_rtt

/-- What the module does to the outside world. -/
inductive Effect where
  /-- `SEGGER_RTT_Init()`. -/
  | rtt_init
  /-- `SEGGER_RTT_printf(channel, format, args...)`. -/
  | rtt_printf (channel : Nat) (format : String) (args : List Arg)
  /-- `SEGGER_RTT_vprintf(channel, format, &arguments)`. -/
  | rtt_vprintf (channel : Nat) (format : String) (args : List Arg)
  /-- Entry into the installed callback, with the six parameters of
  `log_callback_t` in their order. -/
  | sink (cb : log_callback_t) (dbg_level : Nat) (p_filename : String) (line : Nat)
      (timestamp : Nat) (format : String) (arguments : List Arg)
  deriving DecidableEq, Repr

/-- The globals of `log_ultra.c`. -/
structure Globals where
  g_segger_init_flag : Nat
  g_log_dbg_msk : Nat
  g_log_dbg_lvl : Int
  m_log_callback : Option log_callback_t
  deriving DecidableEq, Repr

/-- The globals, the effects so far, and the number of calls of
`log_timestamp_get` so far. -/
structure World where
  g : Globals
  trace : List Effect
  ticks : Nat
  deriving DecidableEq, Repr

/-- The initialisers of the globals. -/
def Globals.initial : Globals where
  g_segger_init_flag := 0
  g_log_dbg_msk := toU32 LOG_MSK_DEFAULT
  g_log_dbg_lvl := LOG_LEVEL_DEFAULT
  m_log_callback := LOG_CALLBACK_DEFAULT

def World.initial : World where
  g := Globals.initial
  trace := []
  ticks := 0

/-- A definition of `log_timestamp_get`: the value its `k`-th call returns. -/
abbrev Clock := Nat → Nat

/-- The `__weak` definition of `log_timestamp_get` in `log_ultra.c`. -/
def defaultClock : Clock := fun _ => 0

/-! ## Functions of `log_ultra.c` -/

/-- Call of `log_timestamp_get()`; the result is a `uint32_t`. -/
def log_timestamp_get (clk : Clock) (w : World) : Nat × World :=
  (clk w.ticks % 2 ^ 32, { w with ticks := w.ticks + 1 })

def log_callback_rtt (_dbg_level : Nat) (p_filename : String) (line : Nat)
    (timestamp : Nat) (format : String) (arguments : List Arg) : List Effect :=
  [Effect.rtt_printf 0 "<t: %10u>, %s, %4d, "
      [Arg.int timestamp, Arg.str p_filename, Arg.int line],
   Effect.rtt_vprintf 0 format arguments]

/-- Call through a non-null `log_callback_t`: entry into the callback, then
what its body does. -/
def callback_call (cb : log_callback_t) (dbg_level : Nat) (p_filename : String) (line : Nat)
    (timestamp : Nat) (format : String) (arguments : List Arg) : List Effect :=
  Effect.sink cb dbg_level p_filename line timestamp format arguments ::
    (match cb with
     | log_callback_t.log_callback_rtt =>
         log_callback_rtt dbg_level p_filename line timestamp format arguments
     | log_callback_t.user _ => [])

def log_init (mask level : Nat) (callback : Option log_callback_t) (w : World) : World :=
  let mask := mask % 2 ^ 32
  let level := level % 2 ^ 32
  let w :=
    if w.g.g_segger_init_flag = 0 then
      { w with trace := w.trace ++ [Effect.rtt_init],
               g := { w.g with g_segger_init_flag := 1 } }
    else w
  { w with g := { w.g with g_log_dbg_msk := mask,
                           g_log_dbg_lvl := toInt32 level,
                           m_log_callback := callback } }

def log_set_callback (callback : Option log_callback_t) (w : World) : World :=
  { w with g := { w.g with m_log_callback := callback } }

def log_vprintf (dbg_level : Nat) (p_filename : String) (line : Nat) (timestamp : Nat)
    (format : String) (arguments : List Arg) (w : World) : World :=
  match w.g.m_log_callback with
  | some cb =>
      { w with trace := w.trace ++
          callback_call cb dbg_level p_filename line timestamp format arguments }
  | none => w

/-- The parameters are `uint32_t`, `const char *`, `uint16_t`, `uint32_t`,
`const char *`, `...`: the integers are converted on entry. -/
def log_printf (dbg_level : Int) (p_filename : String) (line : Int) (timestamp : Nat)
    (format : String) (arguments : List Arg) (w : World) : World :=
  log_vprintf (toU32 dbg_level) p_filename (toU16 line) (timestamp % 2 ^ 32) format arguments w

/-! ## Macros of `log_ultra.h` -/

/-- The function `strrchr`: the suffix starting at the last occurrence of `c`. -/
def strrchr : List Char → Char → Option (List Char)
  | [], _ => none
  | x :: xs, c =>
    match strrchr xs c with
    | some r => some r
    | none => if x = c then some (x :: xs) else none

/-- The macro `__FILENAME__`, applied to the value of `__FILE__`. -/
def __FILENAME__ (file : String) : String :=
  match strrchr file.toList '/' with
  | some r => String.mk (r.drop 1)
  | none =>
    match strrchr file.toList '\\' with
    | some r => String.mk (r.drop 1)
    | none => file

/-- The test of `__LOG` and `__LOG_XB`,
`(source & g_log_dbg_msk) && level <= g_log_dbg_lvl`, at a call site whose
`source` and `level` are single operands of signed integer type with the
values `source` and `level`.  For arguments of other shapes or types the test
is `__LOG_test` / `__LOG_XB_test`. -/
def admitted (g : Globals) (source level : Int) : Bool :=
  (toU32 source &&& g.g_log_dbg_msk != 0) && decide (level ≤ g.g_log_dbg_lvl)

/-- The macro `__LOG(source, level, format, args...)`, expanded in file `file`
at line `line` and linked against the clock `clk`, at a call site whose
`source` and `level` are single operands of signed integer type (see
`__LOG_expand` for arguments as written). -/
def __LOG (clk : Clock) (file : String) (line : Int) (source level : Int)
    (format : String) (args : List Arg) (w : World) : World :=
  if admitted w.g source level then
    let (ts, w) := log_timestamp_get clk w
    log_printf level (__FILENAME__ file) line ts format args w
  else w

/-- The declaration `char array_text[LOG_ARRAY_LEN_MAX * 2 + 1]`: an array that
is not initialised, holding whatever the stack `stack` held before. -/
def array_text_decl (stack : Nat → Char) : List Char :=
  (List.range (LOG_ARRAY_LEN_MAX * 2 + 1)).map stack

/-- The assignment `text[i] = c`; `none` when `i` is outside the array. -/
def text_store (text : List Char) (i : Nat) (c : Char) : Option (List Char) :=
  if i < text.length then some (text.set i c) else none

/-- The loop `for (unsigned _i = 0; _i < _array_len; ++_i) { ... }` of
`__LOG_XB`, from the state `(_i, array_text)`, running at most `fuel`
iterations.  `none` when an index leaves its array or the fuel runs out. -/
def __LOG_XB_loop (array : List Nat) (_array_len : Nat) :
    Nat → Nat → List Char → Option (List Char)
  | 0, _i, array_text => if _i < _array_len then none else some array_text
  | fuel + 1, _i, array_text =>
    if _i < _array_len then do
      let elem ← array[_i]?
      let array_elem := elem % 2 ^ 8
      let hi ← g_log_hex_digits[(array_elem >>> 4) &&& 0xf]?
      let array_text ← text_store array_text (_i * 2 % 2 ^ 32) hi
      let lo ← g_log_hex_digits[array_elem &&& 0xf]?
      let array_text ← text_store array_text ((_i * 2 + 1) % 2 ^ 32) lo
      __LOG_XB_loop array _array_len fuel ((_i + 1) % 2 ^ 32) array_text
    else some array_text

/-- The statements of `__LOG_XB` between the test and the call of
`log_printf`: the clamp of the length, the loop and the terminator. -/
def __LOG_XB_render (stack : Nat → Char) (array : List Nat) (array_len : Int) :
    Option (List Char) := do
  let _array_len := toU32 array_len
  let _array_len := if _array_len < LOG_ARRAY_LEN_MAX then _array_len else LOG_ARRAY_LEN_MAX
  let array_text := array_text_decl stack
  let array_text ← __LOG_XB_loop array _array_len _array_len 0 array_text
  text_store array_text (_array_len * 2 % 2 ^ 32) (Char.ofNat 0)

/-- The macro `__LOG_XB(source, level, msg, array, array_len)`, expanded in
file `file` at line `line`, at a call site whose `source` and `level` are
single operands of signed integer type (see `__LOG_XB_expand` for arguments as
written).  `none` is undefined behaviour. -/
def __LOG_XB (clk : Clock) (stack : Nat → Char) (file : String) (line : Int) (source level : Int)
    (msg : String) (array : List Nat) (array_len : Int) (w : World) : Option World :=
  if admitted w.g source level then do
    let array_text ← __LOG_XB_render stack array array_len
    let (ts, w) := log_timestamp_get clk w
    some (log_printf level (__FILENAME__ file) line ts "%s: %s\n"
      [Arg.str msg, Arg.buf array_text] w)
  else some w

/-- The string a `char *` into `text` points at: the characters before the
first zero. -/
def cstring (text : List Char) : List Char :=
  text.takeWhile (fun c => c != Char.ofNat 0)

/-! ## The macros with their arguments as written -/

/-- The type of an integer operand after the integer promotions, on the 32-bit
target: `int` (also `int32_t`, `long` and every narrower type) or
`unsigned int` (also `uint32_t` and `unsigned long`).  Operands of a 64-bit
type are not modelled. -/
inductive CType where
  | int
  | uint
  deriving DecidableEq, Repr

/-- Conversion of a value to a type. -/
def CType.conv : CType → Int → Int
  | CType.int, v => toInt32 (toU32 v)
  | CType.uint, v => ((toU32 v : Nat) : Int)

/-- The usual arithmetic conversions: the common type of two operands. -/
def CType.common : CType → CType → CType
  | CType.int, CType.int => CType.int
  | _, _ => CType.uint

/-- A value is one of the type. -/
def CType.holds : CType → Int → Prop
  | CType.int, v => -2 ^ 31 ≤ v ∧ v < 2 ^ 31
  | CType.uint, v => 0 ≤ v ∧ v < 2 ^ 32

/-- The values of the globals are values of their types, `uint32_t` and
`int32_t`. -/
def Globals.typed (g : Globals) : Prop :=
  g.g_log_dbg_msk < 2 ^ 32 ∧ -2 ^ 31 ≤ g.g_log_dbg_lvl ∧ g.g_log_dbg_lvl < 2 ^ 31

/-- The binary operators of C that bind no tighter than `<=`, the ones that
matter when an argument is spliced into the tests of the macros:
`<=`, `==`, `!=`, `&`, `^`, `|`, `&&`, `||`. -/
inductive Operator where
  | le
  | eq
  | ne
  | band
  | bxor
  | bor
  | land
  | lor
  deriving DecidableEq, Repr

/-- Binding strength of an operator in the C grammar; a larger number binds
tighter.  The conditional operator `?:` is below all of them. -/
def Operator.prec : Operator → Nat
  | Operator.le => 9
  | Operator.eq => 8
  | Operator.ne => 8
  | Operator.band => 7
  | Operator.bxor => 6
  | Operator.bor => 5
  | Operator.land => 4
  | Operator.lor => 3

/-- A macro argument as the caller wrote it, parsed on its own.  An `operand` is
any side-effect-free expression all of whose operators bind at least as tight
as `<=` (a constant, a variable, a cast, arithmetic, a shift, a comparison),
given by its type and value; `paren` is a parenthesised expression.  In a
`binary` node a right operand that binds no tighter than the node, and a left
operand that binds looser, is a `paren`. -/
inductive CExpr where
  | operand (ty : CType) (v : Int)
  | paren (e : CExpr)
  | binary (op : Operator) (a b : CExpr)
  | cond (c a b : CExpr)
  deriving Repr

/-- A typed value. -/
structure CVal where
  ty : CType
  val : Int
  deriving DecidableEq, Repr

/-- The `int` result of a comparison or of a logical operator. -/
def CVal.ofBool (b : Bool) : CVal := ⟨CType.int, if b then 1 else 0⟩

/-- Value of `x op y`. -/
def Operator.apply (op : Operator) (x y : CVal) : CVal :=
  let t := x.ty.common y.ty
  let a := t.conv x.val
  let b := t.conv y.val
  match op with
  | Operator.le => CVal.ofBool (decide (a ≤ b))
  | Operator.eq => CVal.ofBool (decide (a = b))
  | Operator.ne => CVal.ofBool (decide (a ≠ b))
  | Operator.band => ⟨t, t.conv ((toU32 a &&& toU32 b : Nat) : Int)⟩
  | Operator.bxor => ⟨t, t.conv ((toU32 a ^^^ toU32 b : Nat) : Int)⟩
  | Operator.bor => ⟨t, t.conv ((toU32 a ||| toU32 b : Nat) : Int)⟩
  | Operator.land => CVal.ofBool (decide (x.val ≠ 0) && decide (y.val ≠ 0))
  | Operator.lor => CVal.ofBool (decide (x.val ≠ 0) || decide (y.val ≠ 0))

/-- Value of an expression. -/
def CExpr.eval : CExpr → CVal
  | CExpr.operand ty v => ⟨ty, ty.conv v⟩
  | CExpr.paren e => e.eval
  | CExpr.binary op a b => op.apply a.eval b.eval
  | CExpr.cond c a b =>
    let t := a.eval.ty.common b.eval.ty
    ⟨t, t.conv (if c.eval.val ≠ 0 then a.eval.val else b.eval.val)⟩

/-- The expression C reads in the text `e op r`, where `e` is an argument
pasted in without parentheses and `r` is a single operand: an operator of `e`
that binds looser than `op` keeps its left operand, and `op r` goes to its
right operand. -/
def CExpr.appendOp : CExpr → Operator → CExpr → CExpr
  | CExpr.binary op1 a b, op, r =>
    if op1.prec < op.prec then CExpr.binary op1 a (b.appendOp op r)
    else CExpr.binary op (CExpr.binary op1 a b) r
  | CExpr.cond c a b, op, r => CExpr.cond c a (b.appendOp op r)
  | CExpr.operand ty v, op, r => CExpr.binary op (CExpr.operand ty v) r
  | CExpr.paren e, op, r => CExpr.binary op (CExpr.paren e) r

/-- The expression C reads in the text `l op e`, where `l` is a single operand
and `e` is text without parentheses around it: an operator of `e` that binds
no tighter than `op` keeps its right operand, and `l op` goes to its left
operand. -/
def CExpr.prependOp (l : CExpr) (op : Operator) : CExpr → CExpr
  | CExpr.binary op1 a b =>
    if op1.prec ≤ op.prec then CExpr.binary op1 (CExpr.prependOp l op a) b
    else CExpr.binary op l (CExpr.binary op1 a b)
  | CExpr.cond c a b => CExpr.cond (CExpr.prependOp l op c) a b
  | CExpr.operand ty v => CExpr.binary op l (CExpr.operand ty v)
  | CExpr.paren e => CExpr.binary op l (CExpr.paren e)

/-- The text `source & g_log_dbg_msk` of both macros; `g_log_dbg_msk` is a
`uint32_t`. -/
def sourceTest (g : Globals) (source : CExpr) : CExpr :=
  source.appendOp Operator.band (CExpr.operand CType.uint g.g_log_dbg_msk)

/-- The text `level <= g_log_dbg_lvl` of both macros; `g_log_dbg_lvl` is an
`int32_t`. -/
def levelTest (g : Globals) (level : CExpr) : CExpr :=
  level.appendOp Operator.le (CExpr.operand CType.int g.g_log_dbg_lvl)

/-- The condition of `__LOG`,
`(source & g_log_dbg_msk) && level <= g_log_dbg_lvl`, as C reads it. -/
def __LOG_test (g : Globals) (source level : CExpr) : Bool :=
  decide ((CExpr.prependOp (CExpr.paren (sourceTest g source)) Operator.land
    (levelTest g level)).eval.val ≠ 0)

/-- The condition of `__LOG_XB`,
`(source & g_log_dbg_msk) && (level <= g_log_dbg_lvl)`, as C reads it. -/
def __LOG_XB_test (g : Globals) (source level : CExpr) : Bool :=
  decide ((CExpr.binary Operator.land (CExpr.paren (sourceTest g source))
    (CExpr.paren (levelTest g level))).eval.val ≠ 0)

/-- The macro `__LOG(source, level, format, args...)` with `source` and `level`
as written.  The argument `level` is evaluated again, on its own, as the first
argument of `log_printf`. -/
def __LOG_expand (clk : Clock) (file : String) (line : Int) (source level : CExpr)
    (format : String) (args : List Arg) (w : World) : World :=
  if __LOG_test w.g source level then
    let (ts, w) := log_timestamp_get clk w
    log_printf level.eval.val (__FILENAME__ file) line ts format args w
  else w

/-- The macro `__LOG_XB(source, level, msg, array, array_len)` with `source` and
`level` as written.  `none` is undefined behaviour. -/
def __LOG_XB_expand (clk : Clock) (stack : Nat → Char) (file : String) (line : Int)
    (source level : CExpr) (msg : String) (array : List Nat) (array_len : Int) (w : World) :
    Option World :=
  if __LOG_XB_test w.g source level then do
    let array_text ← __LOG_XB_render stack array array_len
    let (ts, w) := log_timestamp_get clk w
    some (log_printf level.eval.val (__FILENAME__ file) line ts "%s: %s\n"
      [Arg.str msg, Arg.buf array_text] w)
  else some w

/-! ## Programs over the module -/

/-- One use of the module by the embedding application. -/
inductive Op where
  | log_init (mask level : Nat) (callback : Option log_callback_t)
  | log_set_callback (callback : Option log_callback_t)
  | log_printf (dbg_level : Nat) (p_filename : String) (line : Nat) (timestamp : Nat)
      (format : String) (arguments : List Arg)
  | log_vprintf (dbg_level : Nat) (p_filename : String) (line : Nat) (timestamp : Nat)
      (format : String) (arguments : List Arg)
  | __LOG (file : String) (line : Int) (source level : Int) (format : String) (args : List Arg)
  | __LOG_XB (stack : Nat → Char) (file : String) (line : Int) (source level : Int)
      (msg : String) (array : List Nat) (array_len : Int)

/-- The array handed to `__LOG_XB` covers the bytes the macro reads. -/
def Op.wf : Op → Prop
  | Op.__LOG_XB _ _ _ _ _ _ array array_len =>
      min (toU32 array_len) LOG_ARRAY_LEN_MAX ≤ array.length
  | _ => True

def Op.isInit : Op → Bool
  | Op.log_init _ _ _ => true
  | _ => false

def step (clk : Clock) : Op → World → Option World
  | Op.log_init mask level callback, w => some (LogUltra.log_init mask level callback w)
  | Op.log_set_callback callback, w => some (LogUltra.log_set_callback callback w)
  | Op.log_printf l f n t fmt args, w => some (LogUltra.log_printf l f n t fmt args w)
  | Op.log_vprintf l f n t fmt args, w =>
      some (LogUltra.log_vprintf (l % 2 ^ 32) f (n % 2 ^ 16) (t % 2 ^ 32) fmt args w)
  | Op.__LOG file line source level fmt args, w =>
      some (LogUltra.__LOG clk file line source level fmt args w)
  | Op.__LOG_XB stack file line source level msg array array_len, w =>
      LogUltra.__LOG_XB clk stack file line source level msg array array_len w

def run (clk : Clock) : List Op → World → Option World
  | [], w => some w
  | op :: ops, w => (step clk op w).bind (run clk ops)

/-- Number of calls of `SEGGER_RTT_Init` in a trace. -/
def initCalls (t : List Effect) : Nat :=
  t.countP (fun e => match e with | Effect.rtt_init => true | _ => false)

/-- Number of entries into a callback in a trace. -/
def sinkCalls (t : List Effect) : Nat :=
  t.countP (fun e => match e with | Effect.sink _ _ _ _ _ _ _ => true | _ => false)

/-- The flag is `0` and the transport never started, or the flag is `1` and the
transport started once. -/
def Latch (w : World) : Prop :=
  (w.g.g_segger_init_flag = 0 ∧ initCalls w.trace = 0) ∨
  (w.g.g_segger_init_flag = 1 ∧ initCalls w.trace = 1)

/-! ## The hex text, as the specification words it -/

/-- The uppercase hexadecimal digit of a number below sixteen. -/
def hexDigit (d : Nat) : Char := "0123456789ABCDEF".toList.getD d '0'

/-- Two uppercase hexadecimal digits per byte, high nibble first, no
separators. -/
def hexText : List Nat → List Char
  | [] => []
  | b :: bytes => hexDigit (b % 256 / 16) :: hexDigit (b % 256 % 16) :: hexText bytes

set_option maxRecDepth 100000 in
theorem hi_nibble (x : Nat) (hx : x < 256) : (x >>> 4) &&& 0xf = x / 16 := by
  revert x; decide

set_option maxRecDepth 100000 in
theorem lo_nibble (x : Nat) (hx : x < 256) : x &&& 0xf = x % 16 := by
  revert x; decide

theorem hex_digit_some (d : Nat) (hd : d < 16) :
    ∃ c, g_log_hex_digits[d]? = some c ∧ c ≠ Char.ofNat 0 := by
  revert d; decide

theorem text_store_eq (text : List Char) (i : Nat) (c : Char) (h : i < text.length) :
    text_store text i c = some (text.set i c) := by
  simp [text_store, h]

/-- The loop, started at `i` with enough fuel, fills the characters
`2 * i .. 2 * n - 1` and leaves every other one alone. -/
theorem __LOG_XB_loop_spec (array : List Nat) (n : Nat) (hn : n ≤ array.length) (hn32 : n < 2 ^ 31) :
    ∀ (fuel i : Nat) (text : List Char), i ≤ n → n - i ≤ fuel → 2 * n ≤ text.length →
      ∃ text', __LOG_XB_loop array n fuel i text = some text' ∧
        text'.length = text.length ∧
        (∀ j, j < 2 * i ∨ 2 * n ≤ j → text'[j]? = text[j]?) ∧
        (∀ k, i ≤ k → k < n →
          text'[2 * k]? = g_log_hex_digits[array.getD k 0 % 256 / 16]? ∧
          text'[2 * k + 1]? = g_log_hex_digits[array.getD k 0 % 256 % 16]?) := by
  intro fuel
  induction fuel with
  | zero =>
    intro i text hi hfuel _
    have : ¬ i < n := by omega
    exact ⟨text, by simp [__LOG_XB_loop, this], rfl, fun _ _ => rfl, fun k h1 h2 => by omega⟩
  | succ fuel ih =>
    intro i text hi hfuel hlen
    by_cases hlt : i < n
    · have hia : i < array.length := by omega
      have hb : array.getD i 0 % 256 < 256 := Nat.mod_lt _ (by norm_num)
      obtain ⟨chi, hchi, _⟩ := hex_digit_some (array.getD i 0 % 256 / 16) (by omega)
      obtain ⟨clo, hclo, _⟩ := hex_digit_some (array.getD i 0 % 256 % 16) (by omega)
      have e1 : i * 2 % 2 ^ 32 = 2 * i := by rw [Nat.mod_eq_of_lt (by omega)]; omega
      have e2 : (i * 2 + 1) % 2 ^ 32 = 2 * i + 1 := by rw [Nat.mod_eq_of_lt (by omega)]; omega
      have e3 : (i + 1) % 2 ^ 32 = i + 1 := Nat.mod_eq_of_lt (by omega)
      have hget : array[i]? = some (array.getD i 0) := by
        simp [List.getD, List.getElem?_eq_getElem hia]
      obtain ⟨text', hrun, hlen', hout, hin⟩ :=
        ih (i + 1) ((text.set (2 * i) chi).set (2 * i + 1) clo) (by omega) (by omega)
          (by simpa using hlen)
      refine ⟨text', ?_, ?_, ?_, ?_⟩
      · rw [__LOG_XB_loop]
        simp only [hlt, if_true, hget, Option.bind_eq_bind, Option.some_bind]
        have hb8 : array.getD i 0 % 2 ^ 8 = array.getD i 0 % 256 := by norm_num
        rw [hb8, hi_nibble _ hb, lo_nibble _ hb, hchi, hclo]
        simp only [Option.some_bind, e1, e2, e3]
        rw [text_store_eq _ _ _ (by omega)]
        simp only [Option.some_bind]
        rw [text_store_eq _ _ _ (by simp; omega)]
        simpa using hrun
      · simpa using hlen'
      · intro j hj
        rw [hout j (by omega)]
        rw [List.getElem?_set_ne (by omega), List.getElem?_set_ne (by omega)]
      · intro k hk1 hk2
        by_cases hki : k = i
        · subst hki
          rw [hout (2 * k) (by omega), hout (2 * k + 1) (by omega)]
          constructor
          · rw [List.getElem?_set_ne (by omega), List.getElem?_set_self (by omega), hchi]
          · rw [List.getElem?_set_self (by simp; omega), hclo]
        · exact hin k (by omega) hk2
    · exact ⟨text, by simp [__LOG_XB_loop, hlt], rfl, fun _ _ => rfl, fun k h1 h2 => by omega⟩

theorem array_text_decl_length (stack : Nat → Char) :
    (array_text_decl stack).length = 257 := by
  simp [array_text_decl, LOG_ARRAY_LEN_MAX]

/-- Number of bytes `__LOG_XB` renders for the length argument `array_len`. -/
theorem clamp_eq_min (array_len : Int) :
    (if toU32 array_len < LOG_ARRAY_LEN_MAX then toU32 array_len else LOG_ARRAY_LEN_MAX)
      = min (toU32 array_len) LOG_ARRAY_LEN_MAX := by
  split <;> omega

/-- What the rendering leaves in `array_text`. -/
theorem __LOG_XB_render_spec (stack : Nat → Char) (array : List Nat) (array_len : Int)
    (h : min (toU32 array_len) LOG_ARRAY_LEN_MAX ≤ array.length) :
    ∃ text, __LOG_XB_render stack array array_len = some text ∧
      text.length = 257 ∧
      (∀ k, k < min (toU32 array_len) LOG_ARRAY_LEN_MAX →
        text[2 * k]? = g_log_hex_digits[array.getD k 0 % 256 / 16]? ∧
        text[2 * k + 1]? = g_log_hex_digits[array.getD k 0 % 256 % 16]?) ∧
      text[2 * min (toU32 array_len) LOG_ARRAY_LEN_MAX]? = some (Char.ofNat 0) ∧
      (∀ j, 2 * min (toU32 array_len) LOG_ARRAY_LEN_MAX < j →
        text[j]? = (array_text_decl stack)[j]?) := by
  have hn : min (toU32 array_len) LOG_ARRAY_LEN_MAX ≤ 128 := by
    simp [LOG_ARRAY_LEN_MAX]
  generalize hN : min (toU32 array_len) LOG_ARRAY_LEN_MAX = n at h hn
  obtain ⟨text', hrun, hlen, hout, hin⟩ :=
    __LOG_XB_loop_spec array n h (by omega) n 0 (array_text_decl stack) (by omega) (by omega)
      (by rw [array_text_decl_length]; omega)
  rw [array_text_decl_length] at hlen
  have e : n * 2 % 2 ^ 32 = 2 * n := by rw [Nat.mod_eq_of_lt (by omega)]; omega
  refine ⟨text'.set (2 * n) (Char.ofNat 0), ?_, by simpa using hlen, ?_, ?_, ?_⟩
  · unfold __LOG_XB_render
    simp only [clamp_eq_min, hN, Option.bind_eq_bind, hrun, Option.some_bind, e]
    exact text_store_eq _ _ _ (by omega)
  · intro k hk
    rw [List.getElem?_set_ne (by omega), List.getElem?_set_ne (by omega)]
    exact hin k (by omega) hk
  · exact List.getElem?_set_self (by omega)
  · intro j hj
    rw [List.getElem?_set_ne (by omega)]
    exact hout j (by omega)

/-- A text whose first `m` characters are not zero and whose next one is zero
holds the C string made of its first `m` characters. -/
theorem cstring_eq_take : ∀ (text : List Char) (m : Nat),
    (∀ j, j < m → ∃ c, text[j]? = some c ∧ c ≠ Char.ofNat 0) →
    text[m]? = some (Char.ofNat 0) → cstring text = text.take m := by
  intro text
  induction text with
  | nil => intro m _ h0; simp at h0
  | cons a rest ih =>
    intro m hpre h0
    cases m with
    | zero =>
      simp at h0
      simp [cstring, List.takeWhile, h0]
    | succ m =>
      obtain ⟨c, hc, hne⟩ := hpre 0 (by omega)
      simp at hc
      subst hc
      have := ih m (fun j hj => by simpa using hpre (j + 1) (by omega)) (by simpa using h0)
      simp only [cstring] at this ⊢
      have hb : (a != Char.ofNat 0) = true := by simpa using hne
      simp [List.takeWhile, hb, this]

/-- The rendered text read as a C string: the first `2 * n` characters. -/
theorem __LOG_XB_render_cstring (stack : Nat → Char) (array : List Nat) (array_len : Int)
    (h : min (toU32 array_len) LOG_ARRAY_LEN_MAX ≤ array.length) (text : List Char)
    (ht : __LOG_XB_render stack array array_len = some text) :
    cstring text = text.take (2 * min (toU32 array_len) LOG_ARRAY_LEN_MAX) ∧
    (cstring text).length = 2 * min (toU32 array_len) LOG_ARRAY_LEN_MAX := by
  obtain ⟨text', hrun, hlen, hin, hz, _⟩ := __LOG_XB_render_spec stack array array_len h
  have hn : min (toU32 array_len) LOG_ARRAY_LEN_MAX ≤ 128 := by
    simp [LOG_ARRAY_LEN_MAX]
  rw [ht] at hrun
  cases hrun
  have hc : cstring text = text.take (2 * min (toU32 array_len) LOG_ARRAY_LEN_MAX) := by
    apply cstring_eq_take _ _ _ hz
    intro j hj
    have hb : array.getD (j / 2) 0 % 256 < 256 := Nat.mod_lt _ (by norm_num)
    obtain ⟨h1, h2⟩ := hin (j / 2) (by omega)
    rcases Nat.mod_two_eq_zero_or_one j with hj2 | hj2
    · have : 2 * (j / 2) = j := by omega
      rw [this] at h1
      rw [h1]
      exact hex_digit_some _ (by omega)
    · have : 2 * (j / 2) + 1 = j := by omega
      rw [this] at h2
      rw [h2]
      exact hex_digit_some _ (by omega)
  refine ⟨hc, ?_⟩
  rw [hc, List.length_take]
  omega

theorem hexText_length : ∀ bytes : List Nat, (hexText bytes).length = 2 * bytes.length
  | [] => rfl
  | _ :: bytes => by simp [hexText, hexText_length bytes]; omega

theorem hexText_getElem? : ∀ (bytes : List Nat) (k : Nat), k < bytes.length →
    (hexText bytes)[2 * k]? = some (hexDigit (bytes.getD k 0 % 256 / 16)) ∧
    (hexText bytes)[2 * k + 1]? = some (hexDigit (bytes.getD k 0 % 256 % 16))
  | [], k, h => by simp at h
  | b :: bytes, 0, _ => by simp [hexText]
  | b :: bytes, k + 1, h => by
    have ih := hexText_getElem? bytes k (by simpa using h)
    have e1 : 2 * (k + 1) = 2 * k + 1 + 1 := by omega
    have e2 : 2 * (k + 1) + 1 = 2 * k + 1 + 1 + 1 := by omega
    rw [e2, e1]
    simpa [hexText] using ih

theorem hex_digit_eq (d : Nat) (hd : d < 16) : g_log_hex_digits[d]? = some (hexDigit d) := by
  revert d; decide

/-- The rendered text, read as a C string, is the hex text of the bytes the
macro was asked to render. -/
theorem __LOG_XB_render_hexText (stack : Nat → Char) (array : List Nat) (array_len : Int)
    (h : min (toU32 array_len) LOG_ARRAY_LEN_MAX ≤ array.length) (text : List Char)
    (ht : __LOG_XB_render stack array array_len = some text) :
    cstring text = hexText (array.take (min (toU32 array_len) LOG_ARRAY_LEN_MAX)) := by
  obtain ⟨hc, hclen⟩ := __LOG_XB_render_cstring stack array array_len h text ht
  obtain ⟨text', hrun, hlen, hin, hz, _⟩ := __LOG_XB_render_spec stack array array_len h
  rw [ht] at hrun
  cases hrun
  generalize min (toU32 array_len) LOG_ARRAY_LEN_MAX = n at *
  have htl : (array.take n).length = n := by simp [List.length_take]; omega
  apply List.ext_getElem?
  intro j
  by_cases hj : j < 2 * n
  · have hb : array.getD (j / 2) 0 % 256 < 256 := Nat.mod_lt _ (by norm_num)
    have hk : j / 2 < n := by omega
    obtain ⟨h1, h2⟩ := hin (j / 2) hk
    obtain ⟨g1, g2⟩ := hexText_getElem? (array.take n) (j / 2) (by omega)
    have hd : (array.take n).getD (j / 2) 0 = array.getD (j / 2) 0 := by
      simp [List.getD, List.getElem?_take, hk]
    rw [hd] at g1 g2
    rw [hc, List.getElem?_take, if_pos hj]
    rcases Nat.mod_two_eq_zero_or_one j with hj2 | hj2
    · have e : 2 * (j / 2) = j := by omega
      rw [e] at h1 g1
      rw [h1, g1]
      exact hex_digit_eq _ (by omega)
    · have e : 2 * (j / 2) + 1 = j := by omega
      rw [e] at h2 g2
      rw [h2, g2]
      exact hex_digit_eq _ (by omega)
  · rw [List.getElem?_eq_none (by omega), List.getElem?_eq_none (by rw [hexText_length]; omega)]

theorem toU32_natCast (n : Nat) (h : n < 2 ^ 32) : toU32 (n : Int) = n := by
  unfold toU32
  rw [Int.emod_eq_of_lt (by omega) (by omega)]
  simp

/-- Every length argument that clamps to the maximum renders as 128 does. -/
theorem __LOG_XB_render_clamped (stack : Nat → Char) (array : List Nat) (array_len : Int)
    (h : LOG_ARRAY_LEN_MAX ≤ toU32 array_len) :
    __LOG_XB_render stack array array_len = __LOG_XB_render stack array 128 := by
  have e1 : min (toU32 array_len) LOG_ARRAY_LEN_MAX = 128 := by
    simp only [LOG_ARRAY_LEN_MAX] at h ⊢; omega
  have e2 : min (toU32 128) LOG_ARRAY_LEN_MAX = 128 := by decide
  unfold __LOG_XB_render
  simp only [clamp_eq_min, e1, e2]

/-! ## Lemmas on the dispatch -/

theorem admitted_iff (g : Globals) (source level : Int) :
    admitted g source level = true ↔
      (toU32 source &&& g.g_log_dbg_msk ≠ 0 ∧ level ≤ g.g_log_dbg_lvl) := by
  simp [admitted]

theorem sinkCalls_callback_call (t : List Effect) (cb : log_callback_t) (l : Nat) (f : String)
    (n ts : Nat) (fmt : String) (args : List Arg) :
    sinkCalls (t ++ callback_call cb l f n ts fmt args) = sinkCalls t + 1 := by
  cases cb <;> simp [sinkCalls, callback_call, log_callback_rtt, List.countP_cons]

theorem initCalls_callback_call (t : List Effect) (cb : log_callback_t) (l : Nat) (f : String)
    (n ts : Nat) (fmt : String) (args : List Arg) :
    initCalls (t ++ callback_call cb l f n ts fmt args) = initCalls t := by
  cases cb <;> simp [initCalls, callback_call, log_callback_rtt, List.countP_cons]

theorem log_vprintf_some (cb : log_callback_t) (l : Nat) (f : String) (n ts : Nat)
    (fmt : String) (args : List Arg) (w : World) (hcb : w.g.m_log_callback = some cb) :
    log_vprintf l f n ts fmt args w =
      { w with trace := w.trace ++ callback_call cb l f n ts fmt args } := by
  simp [log_vprintf, hcb]

theorem log_vprintf_none (l : Nat) (f : String) (n ts : Nat)
    (fmt : String) (args : List Arg) (w : World) (hcb : w.g.m_log_callback = none) :
    log_vprintf l f n ts fmt args w = w := by
  simp [log_vprintf, hcb]

theorem __LOG_admitted (clk : Clock) (file : String) (line source level : Int) (format : String)
    (args : List Arg) (w : World) (cb : log_callback_t) (hcb : w.g.m_log_callback = some cb)
    (hadm : admitted w.g source level = true) :
    __LOG clk file line source level format args w =
      { g := w.g,
        trace := w.trace ++ callback_call cb (toU32 level) (__FILENAME__ file) (toU16 line)
          (clk w.ticks % 2 ^ 32) format args,
        ticks := w.ticks + 1 } := by
  simp [__LOG, hadm, log_timestamp_get, log_printf, log_vprintf, hcb]

theorem __LOG_rejected (clk : Clock) (file : String) (line source level : Int) (format : String)
    (args : List Arg) (w : World) (hadm : admitted w.g source level = false) :
    __LOG clk file line source level format args w = w := by
  simp [__LOG, hadm]

theorem __LOG_XB_admitted (clk : Clock) (stack : Nat → Char) (file : String)
    (line source level : Int) (msg : String) (array : List Nat) (array_len : Int) (w : World)
    (cb : log_callback_t) (hcb : w.g.m_log_callback = some cb)
    (hadm : admitted w.g source level = true) (text : List Char)
    (ht : __LOG_XB_render stack array array_len = some text) :
    __LOG_XB clk stack file line source level msg array array_len w =
      some { g := w.g,
             trace := w.trace ++ callback_call cb (toU32 level) (__FILENAME__ file) (toU16 line)
               (clk w.ticks % 2 ^ 32) "%s: %s\n" [Arg.str msg, Arg.buf text],
             ticks := w.ticks + 1 } := by
  simp [__LOG_XB, hadm, ht, log_timestamp_get, log_printf, log_vprintf, hcb]

theorem __LOG_XB_rejected (clk : Clock) (stack : Nat → Char) (file : String)
    (line source level : Int) (msg : String) (array : List Nat) (array_len : Int) (w : World)
    (hadm : admitted w.g source level = false) :
    __LOG_XB clk stack file line source level msg array array_len w = some w := by
  simp [__LOG_XB, hadm]

theorem log_vprintf_frame (l : Nat) (f : String) (n ts : Nat) (fmt : String) (args : List Arg)
    (w : World) :
    (log_vprintf l f n ts fmt args w).g = w.g ∧
    initCalls (log_vprintf l f n ts fmt args w).trace = initCalls w.trace := by
  cases hcb : w.g.m_log_callback with
  | none => rw [log_vprintf_none _ _ _ _ _ _ _ hcb]; exact ⟨rfl, rfl⟩
  | some cb =>
    rw [log_vprintf_some cb _ _ _ _ _ _ _ hcb]
    exact ⟨rfl, initCalls_callback_call _ _ _ _ _ _ _ _⟩

theorem log_printf_frame (l : Int) (f : String) (n : Int) (ts : Nat) (fmt : String)
    (args : List Arg) (w : World) :
    (log_printf l f n ts fmt args w).g = w.g ∧
    initCalls (log_printf l f n ts fmt args w).trace = initCalls w.trace :=
  log_vprintf_frame _ _ _ _ _ _ _

theorem __LOG_frame (clk : Clock) (file : String) (line source level : Int) (format : String)
    (args : List Arg) (w : World) :
    (__LOG clk file line source level format args w).g = w.g ∧
    initCalls (__LOG clk file line source level format args w).trace = initCalls w.trace := by
  cases hadm : admitted w.g source level
  · rw [__LOG_rejected _ _ _ _ _ _ _ _ hadm]; exact ⟨rfl, rfl⟩
  · simp only [__LOG, hadm, if_true, log_timestamp_get]
    exact log_printf_frame _ _ _ _ _ _ _

theorem __LOG_XB_frame (clk : Clock) (stack : Nat → Char) (file : String)
    (line source level : Int) (msg : String) (array : List Nat) (array_len : Int) (w : World)
    (harr : min (toU32 array_len) LOG_ARRAY_LEN_MAX ≤ array.length) :
    ∃ w', __LOG_XB clk stack file line source level msg array array_len w = some w' ∧
      w'.g = w.g ∧ initCalls w'.trace = initCalls w.trace := by
  cases hadm : admitted w.g source level
  · exact ⟨w, __LOG_XB_rejected _ _ _ _ _ _ _ _ _ _ hadm, rfl, rfl⟩
  · obtain ⟨text, ht, _⟩ := __LOG_XB_render_spec stack array array_len harr
    refine ⟨_, ?_, log_printf_frame level (__FILENAME__ file) line (clk w.ticks % 2 ^ 32)
      "%s: %s\n" [Arg.str msg, Arg.buf text] { w with ticks := w.ticks + 1 }⟩
    simp [__LOG_XB, hadm, ht, log_timestamp_get]

/-- A step other than `log_init` completes, keeps the init flag and starts no
transport. -/
theorem step_frame (clk : Clock) (op : Op) (w : World) (hwf : op.wf)
    (hni : op.isInit = false) :
    ∃ w', step clk op w = some w' ∧
      w'.g.g_segger_init_flag = w.g.g_segger_init_flag ∧
      initCalls w'.trace = initCalls w.trace := by
  cases op with
  | log_init m l s => simp [Op.isInit] at hni
  | log_set_callback s => exact ⟨_, rfl, rfl, rfl⟩
  | log_printf l f n t fmt args =>
    obtain ⟨h1, h2⟩ := log_printf_frame l f n t fmt args w
    exact ⟨_, rfl, by rw [h1], h2⟩
  | log_vprintf l f n t fmt args =>
    obtain ⟨h1, h2⟩ := log_vprintf_frame (l % 2 ^ 32) f (n % 2 ^ 16) (t % 2 ^ 32) fmt args w
    exact ⟨_, rfl, by rw [h1], h2⟩
  | __LOG file line source level fmt args =>
    obtain ⟨h1, h2⟩ := __LOG_frame clk file line source level fmt args w
    exact ⟨_, rfl, by rw [h1], h2⟩
  | __LOG_XB stack file line source level msg array array_len =>
    obtain ⟨w', h0, h1, h2⟩ :=
      __LOG_XB_frame clk stack file line source level msg array array_len w hwf
    exact ⟨w', h0, by rw [h1], h2⟩

/-- The effect of `log_init` on the flag and on the transport. -/
theorem log_init_latch (m l : Nat) (s : Option log_callback_t) (w : World) :
    (w.g.g_segger_init_flag = 0 →
      (log_init m l s w).trace = w.trace ++ [Effect.rtt_init] ∧
      (log_init m l s w).g.g_segger_init_flag = 1) ∧
    (w.g.g_segger_init_flag ≠ 0 →
      (log_init m l s w).trace = w.trace ∧
      (log_init m l s w).g.g_segger_init_flag = w.g.g_segger_init_flag) := by
  constructor
  · intro h; simp [log_init, h]
  · intro h; simp [log_init, h]

theorem initCalls_append_init (t : List Effect) :
    initCalls (t ++ [Effect.rtt_init]) = initCalls t + 1 := by
  simp [initCalls, List.countP_cons]

theorem run_append (clk : Clock) : ∀ (a b : List Op) (w : World),
    run clk (a ++ b) w = (run clk a w).bind (run clk b)
  | [], b, w => by simp [run]
  | op :: a, b, w => by
    simp only [List.cons_append, run]
    cases step clk op w with
    | none => simp
    | some w1 => simpa using run_append clk a b w1

/-- Any well-formed program completes and keeps the latch; once the flag is
set it stays set, and a program with a `log_init` in it sets it. -/
theorem run_latch (clk : Clock) : ∀ (ops : List Op) (w : World),
    (∀ op ∈ ops, op.wf) → Latch w →
    ∃ w', run clk ops w = some w' ∧ Latch w' ∧
      (w.g.g_segger_init_flag = 1 → w'.g.g_segger_init_flag = 1) ∧
      ((∃ op ∈ ops, op.isInit = true) → w'.g.g_segger_init_flag = 1) ∧
      ((∀ op ∈ ops, op.isInit = false) →
        w'.g.g_segger_init_flag = w.g.g_segger_init_flag ∧
        initCalls w'.trace = initCalls w.trace) := by
  intro ops
  induction ops with
  | nil =>
    intro w _ hl
    exact ⟨w, rfl, hl, id, fun ⟨_, h, _⟩ => by simp at h, fun _ => ⟨rfl, rfl⟩⟩
  | cons op ops ih =>
    intro w hwf hl
    have hwf1 : op.wf := hwf op (by simp)
    have hwf2 : ∀ o ∈ ops, o.wf := fun o ho => hwf o (by simp [ho])
    cases hop : op.isInit
    · obtain ⟨w1, hs, hf, hc⟩ := step_frame clk op w hwf1 hop
      have hl1 : Latch w1 := by
        unfold Latch at hl ⊢; rw [hf, hc]; exact hl
      obtain ⟨w', hr, hl', k1, k2, k3⟩ := ih w1 hwf2 hl1
      refine ⟨w', by simp [run, hs, hr], hl', fun h => k1 (by rw [hf]; exact h), ?_, ?_⟩
      · rintro ⟨o, ho, hoi⟩
        rcases List.mem_cons.1 ho with rfl | ho'
        · rw [hop] at hoi; cases hoi
        · exact k2 ⟨o, ho', hoi⟩
      · intro hall
        obtain ⟨a, b⟩ := k3 (fun o ho => hall o (by simp [ho]))
        exact ⟨by rw [a, hf], by rw [b, hc]⟩
    · cases op with
      | log_init m l s =>
        obtain ⟨i0, i1⟩ := log_init_latch m l s w
        have hl1 : Latch (log_init m l s w) ∧ (log_init m l s w).g.g_segger_init_flag = 1 := by
          rcases hl with ⟨hf, hc⟩ | ⟨hf, hc⟩
          · obtain ⟨a, b⟩ := i0 hf
            exact ⟨Or.inr ⟨b, by rw [a, initCalls_append_init, hc]⟩, b⟩
          · obtain ⟨a, b⟩ := i1 (by omega)
            exact ⟨Or.inr ⟨by rw [b, hf], by rw [a, hc]⟩, by rw [b, hf]⟩
        obtain ⟨w', hr, hl', k1, _, _⟩ := ih (log_init m l s w) hwf2 hl1.1
        refine ⟨w', by simp [run, step, hr], hl', fun _ => k1 hl1.2, fun _ => k1 hl1.2, ?_⟩
        intro hall
        have := hall (Op.log_init m l s) (by simp)
        simp [Op.isInit] at this
      | log_set_callback s => simp [Op.isInit] at hop
      | log_printf l f n t fmt args => simp [Op.isInit] at hop
      | log_vprintf l f n t fmt args => simp [Op.isInit] at hop
      | __LOG file line source level fmt args => simp [Op.isInit] at hop
      | __LOG_XB stack file line source level msg array array_len => simp [Op.isInit] at hop

theorem Latch_initial : Latch World.initial := Or.inl ⟨rfl, rfl⟩

/-- C5. One-time transport initialisation: a program from the initial state
that calls `log_init` at least once, whatever else it does and with whatever
arguments, calls `SEGGER_RTT_Init` exactly once in total; the call is made by
the first `log_init`, later ones make none, and every `log_init` stores its
mask, level and callback. -/
theorem C5_transport_init_once (clk : Clock) (ops : List Op) (hwf : ∀ op ∈ ops, op.wf)
    (hinit : ∃ op ∈ ops, op.isInit = true) :
    (∃ w, run clk ops World.initial = some w ∧ initCalls w.trace = 1 ∧
      w.g.g_segger_init_flag = 1) ∧
    (∀ (pre post : List Op) (m l : Nat) (s : Option log_callback_t),
      ops = pre ++ Op.log_init m l s :: post →
      ∃ w1, run clk pre World.initial = some w1 ∧
        step clk (Op.log_init m l s) w1 = some (log_init m l s w1) ∧
        (log_init m l s w1).g.g_log_dbg_msk = m % 2 ^ 32 ∧
        (log_init m l s w1).g.g_log_dbg_lvl = toInt32 (l % 2 ^ 32) ∧
        (log_init m l s w1).g.m_log_callback = s ∧
        ((∀ op ∈ pre, op.isInit = false) →
          initCalls w1.trace = 0 ∧
          (log_init m l s w1).trace = w1.trace ++ [Effect.rtt_init]) ∧
        ((∃ op ∈ pre, op.isInit = true) →
          initCalls w1.trace = 1 ∧ (log_init m l s w1).trace = w1.trace)) := by
  constructor
  · obtain ⟨w, hr, hl, _, k2, _⟩ := run_latch clk ops World.initial hwf Latch_initial
    have hf := k2 hinit
    refine ⟨w, hr, ?_, hf⟩
    rcases hl with ⟨h0, _⟩ | ⟨_, h1⟩
    · omega
    · exact h1
  · intro pre post m l s hops
    have hwfp : ∀ op ∈ pre, op.wf := fun o ho => hwf o (by rw [hops]; simp [ho])
    obtain ⟨w1, hr, hl, _, k2, k3⟩ := run_latch clk pre World.initial hwfp Latch_initial
    obtain ⟨i0, i1⟩ := log_init_latch m l s w1
    refine ⟨w1, hr, rfl, by simp only [log_init], by simp only [log_init],
      by simp only [log_init], ?_, ?_⟩
    · intro hall
      obtain ⟨a, b⟩ := k3 hall
      have hf0 : w1.g.g_segger_init_flag = 0 := by rw [a]; rfl
      exact ⟨by rw [b]; rfl, (i0 hf0).1⟩
    · intro hex
      have hf1 := k2 hex
      refine ⟨?_, (i1 (by omega)).1⟩
      rcases hl with ⟨h0, _⟩ | ⟨_, h1⟩
      · omega
      · exact h1

/-- C5, on a program that logs, initialises twice with different arguments and
logs again. -/
theorem C5_transport_init_once_witness :
    ∃ w, run defaultClock
        [Op.__LOG "main.c" 3 LOG_SRC_APP_1 LOG_LEVEL_ERROR "boot" [],
         Op.log_init 7 4 (some (log_callback_t.user 1)),
         Op.log_set_callback (some log_callback_t.log_callback_rtt),
         Op.log_init 1 2 none,
         Op.__LOG "main.c" 9 LOG_SRC_APP_1 LOG_LEVEL_ERROR "late" []] World.initial = some w ∧
      initCalls w.trace = 1 ∧ w.g.g_segger_init_flag = 1 :=
  (C5_transport_init_once defaultClock
      [Op.__LOG "main.c" 3 LOG_SRC_APP_1 LOG_LEVEL_ERROR "boot" [],
       Op.log_init 7 4 (some (log_callback_t.user 1)),
       Op.log_set_callback (some log_callback_t.log_callback_rtt),
       Op.log_init 1 2 none,
       Op.__LOG "main.c" 9 LOG_SRC_APP_1 LOG_LEVEL_ERROR "late" []]
      (by intro op hop; simp only [List.mem_cons, List.mem_singleton] at hop
          rcases hop with rfl | rfl | rfl | rfl | rfl | h
          · trivial
          · trivial
          · trivial
          · trivial
          · trivial
          · cases h)
      ⟨Op.log_init 7 4 (some (log_callback_t.user 1)), by simp, rfl⟩).1

/-- C6. `log_set_callback` changes the callback and nothing else: mask,
threshold and init flag keep their values, no effect is produced (so the
transport is not started), and the admission test gives the same answer for
every source and level. -/
theorem C6_set_callback_frame (s : Option log_callback_t) (w : World) :
    (log_set_callback s w).g.m_log_callback = s ∧
    (log_set_callback s w).g.g_log_dbg_msk = w.g.g_log_dbg_msk ∧
    (log_set_callback s w).g.g_log_dbg_lvl = w.g.g_log_dbg_lvl ∧
    (log_set_callback s w).g.g_segger_init_flag = w.g.g_segger_init_flag ∧
    (log_set_callback s w).trace = w.trace ∧
    initCalls (log_set_callback s w).trace = initCalls w.trace ∧
    (log_set_callback s w).ticks = w.ticks ∧
    ∀ source level : Int,
      admitted (log_set_callback s w).g source level = admitted w.g source level :=
  ⟨rfl, rfl, rfl, rfl, rfl, rfl, rfl, fun _ _ => rfl⟩

/-- C7. With no callback installed, `log_vprintf` and `log_printf` return the
world as it was, for every record: no effect, no change of the globals; and a
`__LOG` that passes the admission test changes neither the trace nor the
globals. -/
theorem C7_null_sink_noop (w : World) (hcb : w.g.m_log_callback = none)
    (dbg_level : Nat) (p_filename : String) (line : Nat) (timestamp : Nat) (format : String)
    (arguments : List Arg) (clk : Clock) (file : String) (l s v : Int) :
    log_vprintf dbg_level p_filename line timestamp format arguments w = w ∧
    log_printf dbg_level p_filename line timestamp format arguments w = w ∧
    (__LOG clk file l s v format arguments w).trace = w.trace ∧
    (__LOG clk file l s v format arguments w).g = w.g := by
  refine ⟨log_vprintf_none _ _ _ _ _ _ _ hcb, log_vprintf_none _ _ _ _ _ _ _ hcb, ?_, ?_⟩
  · cases hadm : admitted w.g s v
    · rw [__LOG_rejected _ _ _ _ _ _ _ _ hadm]
    · simp [__LOG, hadm, log_timestamp_get, log_printf, log_vprintf, hcb]
  · exact (__LOG_frame _ _ _ _ _ _ _ _).1

/-- C7, after `log_set_callback(NULL)` on the initial state, for a record that
passes the default filter. -/
theorem C7_null_sink_noop_witness :
    (log_set_callback none World.initial).g.m_log_callback = none ∧
    admitted (log_set_callback none World.initial).g LOG_SRC_APP_1 LOG_LEVEL_ERROR = true ∧
    log_printf 1 "main.c" 12 0 "x=%d" [Arg.int 5] (log_set_callback none World.initial)
      = log_set_callback none World.initial ∧
    (__LOG defaultClock "main.c" 12 LOG_SRC_APP_1 LOG_LEVEL_ERROR "x=%d" [Arg.int 5]
      (log_set_callback none World.initial)).trace = [] :=
  ⟨rfl, by decide,
   (C7_null_sink_noop (log_set_callback none World.initial) rfl 1 "main.c" 12 0 "x=%d"
      [Arg.int 5] defaultClock "main.c" 12 LOG_SRC_APP_1 LOG_LEVEL_ERROR).2.1,
   (C7_null_sink_noop (log_set_callback none World.initial) rfl 1 "main.c" 12 0 "x=%d"
      [Arg.int 5] defaultClock "main.c" 12 LOG_SRC_APP_1 LOG_LEVEL_ERROR).2.2.1⟩

/-- C8, as stated, fails: a `__LOG` expanded at line 70000 reaches the callback
with the line 4464, and one with the level `-1` reaches it with the level
4294967295. -/
theorem C8_counterexample :
    admitted (log_set_callback (some (log_callback_t.user 1)) World.initial).g
      LOG_SRC_APP_1 LOG_LEVEL_ERROR = true ∧
    (__LOG defaultClock "main.c" 70000 LOG_SRC_APP_1 LOG_LEVEL_ERROR "hi" []
        (log_set_callback (some (log_callback_t.user 1)) World.initial)).trace
      = [Effect.sink (log_callback_t.user 1) 1 "main.c" 4464 0 "hi" []] ∧
    admitted (log_set_callback (some (log_callback_t.user 1)) World.initial).g
      LOG_SRC_APP_1 (-1) = true ∧
    (__LOG defaultClock "main.c" 12 LOG_SRC_APP_1 (-1) "hi" []
        (log_set_callback (some (log_callback_t.user 1)) World.initial)).trace
      = [Effect.sink (log_callback_t.user 1) 4294967295 "main.c" 12 0 "hi" []] := by
  decide

/-- C8, amended. An admitted `__LOG` with a callback installed enters the
callback exactly once, with the level converted to `uint32_t`, the file name
`__FILENAME__`, the line converted to `uint16_t`, the value `log_timestamp_get`
returned, and the caller's format and arguments, in this order; the level
arrives unchanged when it is not negative and the line when it is below 65536.
A direct `log_printf` with arguments in the range of its parameters hands all
six over unchanged. -/
theorem C8_forwarding (clk : Clock) (file : String) (line source level : Int)
    (format : String) (args : List Arg) (w : World) (cb : log_callback_t)
    (hcb : w.g.m_log_callback = some cb)
    (hadm : toU32 source &&& w.g.g_log_dbg_msk ≠ 0 ∧ level ≤ w.g.g_log_dbg_lvl) :
    (∃ body,
      (__LOG clk file line source level format args w).trace =
        w.trace ++ Effect.sink cb (toU32 level) (__FILENAME__ file) (toU16 line)
          (log_timestamp_get clk w).1 format args :: body ∧
      sinkCalls body = 0) ∧
    sinkCalls (__LOG clk file line source level format args w).trace = sinkCalls w.trace + 1 ∧
    (0 ≤ level → level < 2 ^ 32 → ((toU32 level : Nat) : Int) = level) ∧
    (0 ≤ line → line < 2 ^ 16 → ((toU16 line : Nat) : Int) = line) ∧
    (∀ (dbg_level : Nat) (p_filename : String) (n timestamp : Nat),
      dbg_level < 2 ^ 32 → n < 2 ^ 16 → timestamp < 2 ^ 32 →
      ∃ body,
        (log_printf dbg_level p_filename n timestamp format args w).trace =
          w.trace ++ Effect.sink cb dbg_level p_filename n timestamp format args :: body ∧
        sinkCalls body = 0) := by
  have hrun := __LOG_admitted clk file line source level format args w cb hcb
    ((admitted_iff _ _ _).2 hadm)
  refine ⟨?_, ?_, ?_, ?_, ?_⟩
  · rw [hrun]
    cases cb with
    | log_callback_rtt =>
      exact ⟨_, rfl, by simp [sinkCalls, log_callback_rtt, List.countP_cons]⟩
    | user a => exact ⟨[], rfl, rfl⟩
  · rw [hrun]; exact sinkCalls_callback_call _ _ _ _ _ _ _ _
  · intro h0 h1
    unfold toU32
    rw [Int.emod_eq_of_lt h0 h1, Int.toNat_of_nonneg h0]
  · intro h0 h1
    unfold toU16
    rw [Int.emod_eq_of_lt h0 h1, Int.toNat_of_nonneg h0]
  · intro dbg_level p_filename n timestamp hd hn ht
    have e1 : toU32 (dbg_level : Int) = dbg_level := toU32_natCast _ hd
    have e2 : toU16 (n : Int) = n := by
      unfold toU16
      rw [Int.emod_eq_of_lt (by omega) (by omega)]
      simp
    have e3 : timestamp % 2 ^ 32 = timestamp := Nat.mod_eq_of_lt ht
    simp only [log_printf, e1, e2, e3]
    rw [log_vprintf_some cb _ _ _ _ _ _ _ hcb]
    cases cb with
    | log_callback_rtt =>
      exact ⟨_, rfl, by simp [sinkCalls, log_callback_rtt, List.countP_cons]⟩
    | user a => exact ⟨[], rfl, rfl⟩

/-- C8 amended, at `__LOG(LOG_SRC_APP_2, LOG_LEVEL_WARN, "n=%d", 7)` on line 120
of `src/app/main.c`, in the initial state. -/
theorem C8_forwarding_witness :
    World.initial.g.m_log_callback = some log_callback_t.log_callback_rtt ∧
    (toU32 LOG_SRC_APP_2 &&& World.initial.g.g_log_dbg_msk ≠ 0 ∧
      LOG_LEVEL_WARN ≤ World.initial.g.g_log_dbg_lvl) ∧
    sinkCalls (__LOG defaultClock "src/app/main.c" 120 LOG_SRC_APP_2 LOG_LEVEL_WARN "n=%d"
      [Arg.int 7] World.initial).trace = sinkCalls World.initial.trace + 1 :=
  ⟨rfl, by decide,
   (C8_forwarding defaultClock "src/app/main.c" 120 LOG_SRC_APP_2 LOG_LEVEL_WARN "n=%d"
      [Arg.int 7] World.initial log_callback_t.log_callback_rtt rfl (by decide)).2.1⟩

/-- C9. The named levels are not strictly increasing: `LOG_LEVEL_DBG2` is `4`,
below `LOG_LEVEL_DBG1 = 5` and equal to `LOG_LEVEL_INFO`; with the threshold
`4` a `LOG_LEVEL_DBG2` message is admitted and the `LOG_LEVEL_DBG1` message
of the same source is not.  Every other neighbouring pair is increasing. -/
theorem C9_debug_levels_out_of_order :
    namedLevels = [0, 1, 2, 3, 4, 5, 4, 7, 8, 9, 10, 11] ∧
    LOG_LEVEL_DBG2 < LOG_LEVEL_DBG1 ∧ LOG_LEVEL_DBG2 = LOG_LEVEL_INFO ∧
    admitted (log_init 1 4 (some log_callback_t.log_callback_rtt) World.initial).g
      LOG_SRC_APP_1 LOG_LEVEL_DBG2 = true ∧
    admitted (log_init 1 4 (some log_callback_t.log_callback_rtt) World.initial).g
      LOG_SRC_APP_1 LOG_LEVEL_DBG1 = false ∧
    (LOG_LEVEL_ASSERT < LOG_LEVEL_ERROR ∧ LOG_LEVEL_ERROR < LOG_LEVEL_WARN ∧
      LOG_LEVEL_WARN < LOG_LEVEL_REPORT ∧ LOG_LEVEL_REPORT < LOG_LEVEL_INFO ∧
      LOG_LEVEL_INFO < LOG_LEVEL_DBG1 ∧ LOG_LEVEL_DBG2 < LOG_LEVEL_DBG3 ∧
      LOG_LEVEL_DBG3 < EVT_LEVEL_BASE ∧ EVT_LEVEL_BASE < EVT_LEVEL_ERROR ∧
      EVT_LEVEL_ERROR < EVT_LEVEL_INFO ∧ EVT_LEVEL_INFO < EVT_LEVEL_DATA) := by
  decide

theorem and_three_ne_zero (n : Nat) :
    n &&& 3 ≠ 0 ↔ (n.testBit 0 = true ∨ n.testBit 1 = true) := by
  have h := Nat.and_pow_two_sub_one_eq_mod n 2
  have e : (2 : Nat) ^ 2 - 1 = 3 := by norm_num
  rw [e] at h
  rw [h, Nat.testBit_to_div_mod, Nat.testBit_to_div_mod]
  simp only [pow_zero, Nat.div_one, pow_one, decide_eq_true_eq]
  omega

/-- C11. The default callback `log_callback_rtt` makes exactly two transport
calls, both on channel 0: `SEGGER_RTT_printf` with the format
`"<t: %10u>, %s, %4d, "` and the arguments `(timestamp, p_filename, line)`,
then `SEGGER_RTT_vprintf` with the format and the arguments it was given; the
level plays no part, and a `log_vprintf` through it adds nothing else. -/
theorem C11_default_sink (dbg_level : Nat) (p_filename : String) (line timestamp : Nat)
    (format : String) (arguments : List Arg) :
    log_callback_rtt dbg_level p_filename line timestamp format arguments =
      [Effect.rtt_printf 0 "<t: %10u>, %s, %4d, "
          [Arg.int timestamp, Arg.str p_filename, Arg.int line],
       Effect.rtt_vprintf 0 format arguments] ∧
    (log_callback_rtt dbg_level p_filename line timestamp format arguments).length = 2 ∧
    (∀ other_level : Nat,
      log_callback_rtt other_level p_filename line timestamp format arguments =
        log_callback_rtt dbg_level p_filename line timestamp format arguments) ∧
    (∀ w : World, w.g.m_log_callback = some log_callback_t.log_callback_rtt →
      (log_vprintf dbg_level p_filename line timestamp format arguments w).trace =
        w.trace ++
          [Effect.sink log_callback_t.log_callback_rtt dbg_level p_filename line timestamp
              format arguments,
           Effect.rtt_printf 0 "<t: %10u>, %s, %4d, "
              [Arg.int timestamp, Arg.str p_filename, Arg.int line],
           Effect.rtt_vprintf 0 format arguments]) := by
  refine ⟨rfl, rfl, fun _ => rfl, ?_⟩
  intro w hcb
  rw [log_vprintf_some _ _ _ _ _ _ _ _ hcb]
  rfl

/-- C12. The `__weak` `log_timestamp_get` returns 0 at every call; and whatever
definition is linked in, the timestamp an admitted `__LOG` or `__LOG_XB` hands
to the callback is the value that definition returned at this call. -/
theorem C12_timestamp_threading (clk : Clock) (stack : Nat → Char) (file : String)
    (line source level : Int) (format : String) (args : List Arg) (msg : String)
    (array : List Nat) (array_len : Int) (w : World) (cb : log_callback_t)
    (hcb : w.g.m_log_callback = some cb)
    (hadm : toU32 source &&& w.g.g_log_dbg_msk ≠ 0 ∧ level ≤ w.g.g_log_dbg_lvl)
    (harr : min (toU32 array_len) LOG_ARRAY_LEN_MAX ≤ array.length) :
    (∀ v : World, (log_timestamp_get defaultClock v).1 = 0) ∧
    (log_timestamp_get clk w).1 = clk w.ticks % 2 ^ 32 ∧
    (∃ body,
      (__LOG clk file line source level format args w).trace =
        w.trace ++ Effect.sink cb (toU32 level) (__FILENAME__ file) (toU16 line)
          (log_timestamp_get clk w).1 format args :: body ∧
      sinkCalls body = 0) ∧
    (∃ w' text body,
      __LOG_XB clk stack file line source level msg array array_len w = some w' ∧
      w'.trace =
        w.trace ++ Effect.sink cb (toU32 level) (__FILENAME__ file) (toU16 line)
          (log_timestamp_get clk w).1 "%s: %s\n" [Arg.str msg, Arg.buf text] :: body ∧
      sinkCalls body = 0) ∧
    (__LOG clk file line source level format args w).ticks = w.ticks + 1 := by
  have hadm' := (admitted_iff _ _ _).2 hadm
  have hbody : ∀ (l : Nat) (f : String) (n ts : Nat) (fmt : String) (a : List Arg),
      ∃ body, callback_call cb l f n ts fmt a = Effect.sink cb l f n ts fmt a :: body ∧
        sinkCalls body = 0 := by
    intro l f n ts fmt a
    cases cb with
    | log_callback_rtt =>
      exact ⟨_, rfl, by simp [sinkCalls, log_callback_rtt, List.countP_cons]⟩
    | user addr => exact ⟨[], rfl, rfl⟩
  refine ⟨fun v => rfl, rfl, ?_, ?_, ?_⟩
  · rw [__LOG_admitted clk file line source level format args w cb hcb hadm']
    obtain ⟨body, hb, hz⟩ := hbody (toU32 level) (__FILENAME__ file) (toU16 line)
      (clk w.ticks % 2 ^ 32) format args
    exact ⟨body, by rw [hb]; rfl, hz⟩
  · obtain ⟨text, ht, _⟩ := __LOG_XB_render_spec stack array array_len harr
    obtain ⟨body, hb, hz⟩ := hbody (toU32 level) (__FILENAME__ file) (toU16 line)
      (clk w.ticks % 2 ^ 32) "%s: %s\n" [Arg.str msg, Arg.buf text]
    exact ⟨_, text, body,
      __LOG_XB_admitted clk stack file line source level msg array array_len w cb hcb hadm'
        text ht, by rw [hb]; rfl, hz⟩
  · rw [__LOG_admitted clk file line source level format args w cb hcb hadm']

/-- C12, with a clock that counts its calls from 1000: the first admitted
`__LOG` reaches the callback with the timestamp 1000. -/
theorem C12_timestamp_threading_witness :
    (log_set_callback (some (log_callback_t.user 7)) World.initial).g.m_log_callback
      = some (log_callback_t.user 7) ∧
    (toU32 LOG_SRC_APP_1 &&&
        (log_set_callback (some (log_callback_t.user 7)) World.initial).g.g_log_dbg_msk ≠ 0 ∧
      LOG_LEVEL_WARN ≤
        (log_set_callback (some (log_callback_t.user 7)) World.initial).g.g_log_dbg_lvl) ∧
    (log_timestamp_get (fun k => 1000 + k)
      (log_set_callback (some (log_callback_t.user 7)) World.initial)).1 = 1000 ∧
    (∃ body,
      (__LOG (fun k => 1000 + k) "main.c" 5 LOG_SRC_APP_1 LOG_LEVEL_WARN "tick" []
        (log_set_callback (some (log_callback_t.user 7)) World.initial)).trace =
        (log_set_callback (some (log_callback_t.user 7)) World.initial).trace ++
          Effect.sink (log_callback_t.user 7) (toU32 LOG_LEVEL_WARN) (__FILENAME__ "main.c")
            (toU16 5)
            (log_timestamp_get (fun k => 1000 + k)
              (log_set_callback (some (log_callback_t.user 7)) World.initial)).1
            "tick" [] :: body ∧
      sinkCalls body = 0) :=
  ⟨rfl, by decide, by decide,
   (C12_timestamp_threading (fun k => 1000 + k) (fun _ => 'x') "main.c" 5 LOG_SRC_APP_1
      LOG_LEVEL_WARN "tick" [] "m" [] 0
      (log_set_callback (some (log_callback_t.user 7)) World.initial)
      (log_callback_t.user 7) rfl (by decide) (by decide)).2.2.1⟩

/-- One step from any state: it completes, a set flag keeps its value, and the
flag changes only from `0` to `1` and only in `log_init`. -/
theorem step_flag (clk : Clock) (op : Op) (w : World) (hwf : op.wf) :
    ∃ w', step clk op w = some w' ∧
      (w.g.g_segger_init_flag ≠ 0 → w'.g.g_segger_init_flag = w.g.g_segger_init_flag) ∧
      (w'.g.g_segger_init_flag ≠ w.g.g_segger_init_flag →
        w.g.g_segger_init_flag = 0 ∧ w'.g.g_segger_init_flag = 1 ∧ op.isInit = true) := by
  cases hop : op.isInit
  · obtain ⟨w', hs, hf, _⟩ := step_frame clk op w hwf hop
    exact ⟨w', hs, fun _ => hf, fun h => absurd hf h⟩
  · cases op with
    | log_init m l s =>
      obtain ⟨i0, i1⟩ := log_init_latch m l s w
      refine ⟨log_init m l s w, rfl, fun h => (i1 h).2, ?_⟩
      intro hne
      by_cases h0 : w.g.g_segger_init_flag = 0
      · exact ⟨h0, (i0 h0).2, rfl⟩
      · exact absurd (i1 h0).2 hne
    | log_set_callback s => simp [Op.isInit] at hop
    | log_printf l f n t fmt args => simp [Op.isInit] at hop
    | log_vprintf l f n t fmt args => simp [Op.isInit] at hop
    | __LOG file line source level fmt args => simp [Op.isInit] at hop
    | __LOG_XB stack file line source level msg array array_len => simp [Op.isInit] at hop

/-- The same over a whole program. -/
theorem run_flag (clk : Clock) : ∀ (ops : List Op) (w : World), (∀ op ∈ ops, op.wf) →
    ∃ w', run clk ops w = some w' ∧
      (w.g.g_segger_init_flag ≠ 0 → w'.g.g_segger_init_flag = w.g.g_segger_init_flag) ∧
      (w'.g.g_segger_init_flag ≠ w.g.g_segger_init_flag →
        w.g.g_segger_init_flag = 0 ∧ w'.g.g_segger_init_flag = 1 ∧
        ∃ op ∈ ops, op.isInit = true) := by
  intro ops
  induction ops with
  | nil => intro w _; exact ⟨w, rfl, fun _ => rfl, fun h => absurd rfl h⟩
  | cons op ops ih =>
    intro w hwf
    obtain ⟨w1, hs, a1, a2⟩ := step_flag clk op w (hwf op (by simp))
    obtain ⟨w', hr, b1, b2⟩ := ih w1 (fun o ho => hwf o (by simp [ho]))
    refine ⟨w', by simp [run, hs, hr], ?_, ?_⟩
    · intro h
      have e1 := a1 h
      rw [b1 (by rw [e1]; exact h), e1]
    · intro hne
      by_cases h1 : w1.g.g_segger_init_flag = w.g.g_segger_init_flag
      · rw [← h1] at hne
        obtain ⟨c1, c2, o, ho, hoi⟩ := b2 hne
        exact ⟨by rw [← h1]; exact c1, c2, o, by simp [ho], hoi⟩
      · obtain ⟨c1, c2, c3⟩ := a2 h1
        refine ⟨c1, ?_, op, by simp, c3⟩
        rw [b1 (by omega), c2]

/-- C13. The init latch never reverts: every program of `log_init`,
`log_set_callback`, `log_printf`, `log_vprintf`, `__LOG` and `__LOG_XB` steps
completes, and from a state whose flag is set it ends in a state whose flag is
set; the flag changes only from clear to set, and only when the program holds
a `log_init`.  From the initial state the flag ends set exactly when the
program called `log_init`. -/
theorem C13_init_latch (clk : Clock) (ops : List Op) (w : World) (hwf : ∀ op ∈ ops, op.wf) :
    (∃ w', run clk ops w = some w' ∧
      (w.g.g_segger_init_flag ≠ 0 → w'.g.g_segger_init_flag = w.g.g_segger_init_flag) ∧
      (w.g.g_segger_init_flag = 1 → w'.g.g_segger_init_flag = 1) ∧
      (w'.g.g_segger_init_flag ≠ w.g.g_segger_init_flag →
        w.g.g_segger_init_flag = 0 ∧ w'.g.g_segger_init_flag = 1 ∧
        ∃ op ∈ ops, op.isInit = true)) ∧
    (∃ v, run clk ops World.initial = some v ∧
      (v.g.g_segger_init_flag = 0 ∨ v.g.g_segger_init_flag = 1) ∧
      (v.g.g_segger_init_flag = 1 ↔ ∃ op ∈ ops, op.isInit = true)) := by
  constructor
  · obtain ⟨w', hr, b1, b2⟩ := run_flag clk ops w hwf
    exact ⟨w', hr, b1, fun h => by rw [b1 (by omega), h], b2⟩
  · obtain ⟨v, hr, hl, _, k2, k3⟩ := run_latch clk ops World.initial hwf Latch_initial
    refine ⟨v, hr, ?_, ⟨?_, k2⟩⟩
    · rcases hl with ⟨h, _⟩ | ⟨h, _⟩
      · exact Or.inl h
      · exact Or.inr h
    · intro hv
      by_contra hno
      have hall : ∀ op ∈ ops, op.isInit = false := by
        intro op hop
        cases hoi : op.isInit
        · rfl
        · exact absurd ⟨op, hop, hoi⟩ hno
      have h0 : v.g.g_segger_init_flag = 0 := by rw [(k3 hall).1]; rfl
      omega

/-- C13, on an initialised state followed by a program that logs, swaps the
callback, dumps bytes and initialises again. -/
theorem C13_init_latch_witness :
    (log_init 3 2 none World.initial).g.g_segger_init_flag = 1 ∧
    ∃ w', run defaultClock
        [Op.__LOG "main.c" 3 LOG_SRC_APP_1 LOG_LEVEL_ERROR "boot" [],
         Op.log_set_callback (some (log_callback_t.user 1)),
         Op.__LOG_XB (fun _ => 'x') "main.c" 4 LOG_SRC_APP_1 LOG_LEVEL_ERROR "key" [1, 2] 2,
         Op.log_init 1 7 none] (log_init 3 2 none World.initial) = some w' ∧
      w'.g.g_segger_init_flag = 1 := by
  refine ⟨rfl, ?_⟩
  obtain ⟨w', hr, _, h1, _⟩ :=
    (C13_init_latch defaultClock
      [Op.__LOG "main.c" 3 LOG_SRC_APP_1 LOG_LEVEL_ERROR "boot" [],
       Op.log_set_callback (some (log_callback_t.user 1)),
       Op.__LOG_XB (fun _ => 'x') "main.c" 4 LOG_SRC_APP_1 LOG_LEVEL_ERROR "key" [1, 2] 2,
       Op.log_init 1 7 none] (log_init 3 2 none World.initial)
      (by intro op hop; simp only [List.mem_cons, List.mem_singleton] at hop
          rcases hop with rfl | rfl | rfl | rfl | h
          · trivial
          · trivial
          · show min (toU32 2) LOG_ARRAY_LEN_MAX ≤ [1, 2].length
            decide
          · trivial
          · cases h)).1
  exact ⟨w', hr, h1 rfl⟩

theorem text_store_eq_none (text : List Char) (i : Nat) (c : Char) :
    text_store text i c = none ↔ text.length ≤ i := by
  unfold text_store
  split
  · simp; omega
  · simp; omega

/-- C15. Buffer safety of `__LOG_XB`: for any length argument and any content
of the array, the rendering runs through without an index leaving
`array_text` or the digit table.  The indices stored to, `_i * 2` and
`_i * 2 + 1` for `_i` below the clamped length and `_array_len * 2` for the
terminator, are below the 257 characters of `array_text`, and the indices
`(array_elem >> 4) & 0xf` and `array_elem & 0xf` are below 16, the length of
`g_log_hex_digits`. -/
theorem C15_buffer_safety (stack : Nat → Char) (array : List Nat) (array_len : Int)
    (harr : min (toU32 array_len) LOG_ARRAY_LEN_MAX ≤ array.length) :
    (∃ text, __LOG_XB_render stack array array_len = some text ∧
      text.length = LOG_ARRAY_LEN_MAX * 2 + 1) ∧
    (array_text_decl stack).length = 2 * 128 + 1 ∧
    (∀ _i, _i < min (toU32 array_len) LOG_ARRAY_LEN_MAX →
      _i * 2 % 2 ^ 32 < (array_text_decl stack).length ∧
      (_i * 2 + 1) % 2 ^ 32 < (array_text_decl stack).length) ∧
    min (toU32 array_len) LOG_ARRAY_LEN_MAX * 2 % 2 ^ 32 < (array_text_decl stack).length ∧
    min (toU32 array_len) LOG_ARRAY_LEN_MAX * 2 % 2 ^ 32
      = 2 * min (toU32 array_len) LOG_ARRAY_LEN_MAX ∧
    (∀ b : Nat, ((b % 2 ^ 8) >>> 4) &&& 0xf < g_log_hex_digits.length ∧
      (b % 2 ^ 8) &&& 0xf < g_log_hex_digits.length) ∧
    g_log_hex_digits.length = 16 ∧
    (∀ (text : List Char) (i : Nat) (c : Char),
      text_store text i c = none ↔ text.length ≤ i) := by
  have hn : min (toU32 array_len) LOG_ARRAY_LEN_MAX ≤ 128 := by
    simp [LOG_ARRAY_LEN_MAX]
  have hlen := array_text_decl_length stack
  obtain ⟨text, ht, hl, _⟩ := __LOG_XB_render_spec stack array array_len harr
  refine ⟨⟨text, ht, by rw [hl]; rfl⟩, hlen, ?_, ?_, ?_, ?_, rfl, text_store_eq_none⟩
  · intro i hi
    rw [hlen, Nat.mod_eq_of_lt (by omega), Nat.mod_eq_of_lt (by omega)]
    omega
  · rw [hlen, Nat.mod_eq_of_lt (by omega)]
    omega
  · rw [Nat.mod_eq_of_lt (by omega)]
    omega
  · intro b
    have hb : b % 2 ^ 8 < 256 := Nat.mod_lt _ (by norm_num)
    have h16 : g_log_hex_digits.length = 16 := rfl
    rw [hi_nibble _ hb, lo_nibble _ hb, h16]
    omega

/-- C15, for the length argument `-1` and 128 bytes `FF`. -/
theorem C15_buffer_safety_witness :
    min (toU32 (-1)) LOG_ARRAY_LEN_MAX ≤ (List.replicate 128 0xFF).length ∧
    ∃ text, __LOG_XB_render (fun _ => 'x') (List.replicate 128 0xFF) (-1) = some text ∧
      text.length = LOG_ARRAY_LEN_MAX * 2 + 1 :=
  ⟨by rw [List.length_replicate]; decide,
   (C15_buffer_safety (fun _ => 'x') (List.replicate 128 0xFF) (-1)
      (by rw [List.length_replicate]; decide)).1⟩

theorem hexDigit_ne_zero (d : Nat) : hexDigit d ≠ Char.ofNat 0 := by
  by_cases hd : d < 16
  · revert d; decide
  · have : "0123456789ABCDEF".toList.length ≤ d := by
      have : "0123456789ABCDEF".toList.length = 16 := rfl
      omega
    rw [hexDigit, List.getD_eq_default _ _ this]
    decide

/-- C17. A negative length is clamped as an unsigned value: a length argument
that is a negative `int` becomes `length + 2 ^ 32` in `unsigned _array_len`,
which `MIN` clamps to 128; the text has 256 characters, and the macro does
what it does for the length 128. -/
theorem C17_negative_length (stack : Nat → Char) (array : List Nat) (array_len : Int)
    (hneg : array_len < 0) (hmin : -2 ^ 31 ≤ array_len)
    (harr : LOG_ARRAY_LEN_MAX ≤ array.length) :
    ((toU32 array_len : Nat) : Int) = array_len + 2 ^ 32 ∧
    (if toU32 array_len < LOG_ARRAY_LEN_MAX then toU32 array_len else LOG_ARRAY_LEN_MAX)
      = 128 ∧
    (∃ text, __LOG_XB_render stack array array_len = some text ∧
      (cstring text).length = 256 ∧
      cstring text = hexText (array.take 128)) ∧
    __LOG_XB_render stack array array_len = __LOG_XB_render stack array 128 ∧
    (∀ (clk : Clock) (file : String) (line source level : Int) (msg : String) (w : World),
      __LOG_XB clk stack file line source level msg array array_len w
        = __LOG_XB clk stack file line source level msg array 128 w) := by
  have hmod : array_len % 2 ^ 32 = array_len + 2 ^ 32 := by omega
  have hu : ((toU32 array_len : Nat) : Int) = array_len + 2 ^ 32 := by
    unfold toU32
    rw [hmod, Int.toNat_of_nonneg (by omega)]
  have hge : LOG_ARRAY_LEN_MAX ≤ toU32 array_len := by
    simp only [LOG_ARRAY_LEN_MAX]; omega
  have hm : min (toU32 array_len) LOG_ARRAY_LEN_MAX = 128 := by
    simp only [LOG_ARRAY_LEN_MAX] at hge ⊢; omega
  have hbuf : min (toU32 array_len) LOG_ARRAY_LEN_MAX ≤ array.length := by
    rw [hm]; exact harr
  have hcl := __LOG_XB_render_clamped stack array array_len hge
  refine ⟨hu, by rw [clamp_eq_min, hm], ?_, hcl, ?_⟩
  · obtain ⟨text, ht, _⟩ := __LOG_XB_render_spec stack array array_len hbuf
    have hx := __LOG_XB_render_hexText stack array array_len hbuf text ht
    have hl := (__LOG_XB_render_cstring stack array array_len hbuf text ht).2
    rw [hm] at hx hl
    exact ⟨text, ht, hl, hx⟩
  · intro clk file line source level msg w
    simp only [__LOG_XB, hcl]

/-- C17, for the length argument `-1` and 130 bytes `5A`. -/
theorem C17_negative_length_witness :
    ((-1 : Int) < 0 ∧ -2 ^ 31 ≤ (-1 : Int)) ∧
    LOG_ARRAY_LEN_MAX ≤ (List.replicate 130 0x5A).length ∧
    ((toU32 (-1) : Nat) : Int) = -1 + 2 ^ 32 ∧
    ∃ text, __LOG_XB_render (fun _ => 'x') (List.replicate 130 0x5A) (-1) = some text ∧
      (cstring text).length = 256 ∧
      cstring text = hexText ((List.replicate 130 0x5A).take 128) :=
  ⟨by decide, by rw [List.length_replicate]; decide,
   (C17_negative_length (fun _ => 'x') (List.replicate 130 0x5A) (-1) (by decide) (by decide)
      (by rw [List.length_replicate]; decide)).1,
   (C17_negative_length (fun _ => 'x') (List.replicate 130 0x5A) (-1) (by decide) (by decide)
      (by rw [List.length_replicate]; decide)).2.2.1⟩

theorem toU32_lt (x : Int) : toU32 x < 2 ^ 32 := by
  unfold toU32; omega

theorem toU32_natCast_mod (n : Nat) : toU32 (n : Int) = n % 2 ^ 32 := by
  unfold toU32; omega

theorem toU32_toInt32 (n : Nat) : toU32 (toInt32 n) = n % 2 ^ 32 := by
  unfold toInt32 toU32
  split <;> omega

theorem toU32_conv (t : CType) (v : Int) : toU32 (t.conv v) = toU32 v := by
  have := toU32_lt v
  cases t
  · simp only [CType.conv, toU32_toInt32]; omega
  · simp only [CType.conv, toU32_natCast_mod]; omega

theorem conv_of_holds (t : CType) (v : Int) (h : t.holds v) : t.conv v = v := by
  cases t
  · obtain ⟨h1, h2⟩ := h
    simp only [CType.conv]
    unfold toInt32 toU32
    split <;> omega
  · obtain ⟨h1, h2⟩ := h
    simp only [CType.conv]
    unfold toU32
    omega

theorem common_uint_right (t : CType) : t.common CType.uint = CType.uint := by
  cases t <;> rfl

/-- Value of `source & g_log_dbg_msk` for a single operand. -/
theorem sourceTest_operand (g : Globals) (hg : g.typed) (ts : CType) (s : Int) :
    (sourceTest g (CExpr.operand ts s)).eval
      = ⟨CType.uint, ((toU32 s &&& g.g_log_dbg_msk : Nat) : Int)⟩ := by
  have hm : toU32 (g.g_log_dbg_msk : Int) = g.g_log_dbg_msk := toU32_natCast _ hg.1
  have hle : toU32 s &&& g.g_log_dbg_msk ≤ g.g_log_dbg_msk := Nat.and_le_right
  have hlt : toU32 s &&& g.g_log_dbg_msk < 2 ^ 32 := lt_of_le_of_lt hle hg.1
  simp only [sourceTest, CExpr.appendOp, CExpr.eval, Operator.apply, common_uint_right,
    toU32_conv, hm]
  congr 1
  exact conv_of_holds CType.uint _ ⟨by omega, by omega⟩

/-- Value of `level <= g_log_dbg_lvl` for a single operand of signed type. -/
theorem levelTest_int (g : Globals) (hg : g.typed) (l : Int) (hl : CType.int.holds l) :
    (levelTest g (CExpr.operand CType.int l)).eval
      = CVal.ofBool (decide (l ≤ g.g_log_dbg_lvl)) := by
  have h1 := conv_of_holds CType.int l hl
  have h2 := conv_of_holds CType.int g.g_log_dbg_lvl ⟨hg.2.1, hg.2.2⟩
  simp only [levelTest, CExpr.appendOp, CExpr.eval, Operator.apply, CType.common, h1, h2]

/-- Value of `level <= g_log_dbg_lvl` for a single operand of unsigned type:
the threshold is converted to unsigned. -/
theorem levelTest_uint (g : Globals) (u : Nat) (hu : u < 2 ^ 32) :
    (levelTest g (CExpr.operand CType.uint u)).eval
      = CVal.ofBool (decide (u ≤ toU32 g.g_log_dbg_lvl)) := by
  have h1 : CType.uint.conv (u : Int) = (u : Int) :=
    conv_of_holds CType.uint _ ⟨by omega, by omega⟩
  have h2 : CType.uint.conv (CType.int.conv g.g_log_dbg_lvl)
      = ((toU32 g.g_log_dbg_lvl : Nat) : Int) := by
    simp only [CType.conv, toU32_toInt32]
    have := toU32_lt g.g_log_dbg_lvl
    congr 1
    omega
  simp only [levelTest, CExpr.appendOp, CExpr.eval, Operator.apply, CType.common, h1, h2]
  congr 1
  simp

theorem ofBool_val_ne_zero (b : Bool) : (CVal.ofBool b).val ≠ 0 ↔ b = true := by
  cases b <;> simp [CVal.ofBool]

theorem land_val (a b : CExpr) :
    (CExpr.binary Operator.land (CExpr.paren a) b).eval.val ≠ 0 ↔
      (a.eval.val ≠ 0 ∧ b.eval.val ≠ 0) := by
  by_cases ha : a.eval.val = 0 <;> by_cases hb : b.eval.val = 0 <;>
    simp [CExpr.eval, Operator.apply, CVal.ofBool, ha, hb]

/-- For single operands both macros make the same test. -/
theorem __LOG_XB_test_operands (g : Globals) (ts tl : CType) (s l : Int) :
    __LOG_XB_test g (CExpr.operand ts s) (CExpr.operand tl l)
      = __LOG_test g (CExpr.operand ts s) (CExpr.operand tl l) := by
  simp [__LOG_XB_test, __LOG_test, levelTest, CExpr.appendOp, CExpr.prependOp,
    Operator.prec, CExpr.eval]

/-- The test of `__LOG` for a source operand and a signed level operand. -/
theorem __LOG_test_int (g : Globals) (hg : g.typed) (ts : CType) (s l : Int)
    (hl : CType.int.holds l) :
    __LOG_test g (CExpr.operand ts s) (CExpr.operand CType.int l) = true ↔
      (toU32 s &&& g.g_log_dbg_msk ≠ 0 ∧ l ≤ g.g_log_dbg_lvl) := by
  have hs := sourceTest_operand g hg ts s
  have hv := levelTest_int g hg l hl
  have hp : CExpr.prependOp (CExpr.paren (sourceTest g (CExpr.operand ts s))) Operator.land
      (levelTest g (CExpr.operand CType.int l))
      = CExpr.binary Operator.land (CExpr.paren (sourceTest g (CExpr.operand ts s)))
          (levelTest g (CExpr.operand CType.int l)) := by
    simp [levelTest, CExpr.appendOp, CExpr.prependOp, Operator.prec]
  unfold __LOG_test
  rw [decide_eq_true_eq, hp, land_val, hs, hv, ofBool_val_ne_zero]
  simp

/-- The test of `__LOG` for a source operand and an unsigned level operand. -/
theorem __LOG_test_uint (g : Globals) (hg : g.typed) (ts : CType) (s : Int) (u : Nat)
    (hu : u < 2 ^ 32) :
    __LOG_test g (CExpr.operand ts s) (CExpr.operand CType.uint u) = true ↔
      (toU32 s &&& g.g_log_dbg_msk ≠ 0 ∧ u ≤ toU32 g.g_log_dbg_lvl) := by
  have hs := sourceTest_operand g hg ts s
  have hv := levelTest_uint g u hu
  have hp : CExpr.prependOp (CExpr.paren (sourceTest g (CExpr.operand ts s))) Operator.land
      (levelTest g (CExpr.operand CType.uint u))
      = CExpr.binary Operator.land (CExpr.paren (sourceTest g (CExpr.operand ts s)))
          (levelTest g (CExpr.operand CType.uint u)) := by
    simp [levelTest, CExpr.appendOp, CExpr.prependOp, Operator.prec]
  unfold __LOG_test
  rw [decide_eq_true_eq, hp, land_val, hs, hv, ofBool_val_ne_zero]
  simp

theorem __LOG_expand_pass (clk : Clock) (file : String) (line : Int) (source level : CExpr)
    (format : String) (args : List Arg) (w : World) (cb : log_callback_t)
    (hcb : w.g.m_log_callback = some cb) (ht : __LOG_test w.g source level = true) :
    __LOG_expand clk file line source level format args w =
      { g := w.g,
        trace := w.trace ++ callback_call cb (toU32 level.eval.val) (__FILENAME__ file)
          (toU16 line) (clk w.ticks % 2 ^ 32) format args,
        ticks := w.ticks + 1 } := by
  simp [__LOG_expand, ht, log_timestamp_get, log_printf, log_vprintf, hcb]

theorem __LOG_expand_fail (clk : Clock) (file : String) (line : Int) (source level : CExpr)
    (format : String) (args : List Arg) (w : World)
    (ht : __LOG_test w.g source level = false) :
    __LOG_expand clk file line source level format args w = w := by
  simp [__LOG_expand, ht]

theorem __LOG_XB_expand_pass (clk : Clock) (stack : Nat → Char) (file : String) (line : Int)
    (source level : CExpr) (msg : String) (array : List Nat) (array_len : Int) (w : World)
    (cb : log_callback_t) (hcb : w.g.m_log_callback = some cb)
    (ht : __LOG_XB_test w.g source level = true) (text : List Char)
    (hr : __LOG_XB_render stack array array_len = some text) :
    __LOG_XB_expand clk stack file line source level msg array array_len w =
      some { g := w.g,
             trace := w.trace ++ callback_call cb (toU32 level.eval.val) (__FILENAME__ file)
               (toU16 line) (clk w.ticks % 2 ^ 32) "%s: %s\n" [Arg.str msg, Arg.buf text],
             ticks := w.ticks + 1 } := by
  simp [__LOG_XB_expand, ht, hr, log_timestamp_get, log_printf, log_vprintf, hcb]

theorem __LOG_XB_expand_fail (clk : Clock) (stack : Nat → Char) (file : String) (line : Int)
    (source level : CExpr) (msg : String) (array : List Nat) (array_len : Int) (w : World)
    (ht : __LOG_XB_test w.g source level = false) :
    __LOG_XB_expand clk stack file line source level msg array array_len w = some w := by
  simp [__LOG_XB_expand, ht]

theorem __LOG_expand_frame (clk : Clock) (file : String) (line : Int) (source level : CExpr)
    (format : String) (args : List Arg) (w : World) :
    (__LOG_expand clk file line source level format args w).g = w.g := by
  cases ht : __LOG_test w.g source level
  · rw [__LOG_expand_fail _ _ _ _ _ _ _ _ ht]
  · simp only [__LOG_expand, ht, if_true, log_timestamp_get]
    exact (log_printf_frame _ _ _ _ _ _ _).1

theorem __LOG_XB_expand_frame (clk : Clock) (stack : Nat → Char) (file : String) (line : Int)
    (source level : CExpr) (msg : String) (array : List Nat) (array_len : Int) (w : World)
    (harr : min (toU32 array_len) LOG_ARRAY_LEN_MAX ≤ array.length) :
    ∃ w', __LOG_XB_expand clk stack file line source level msg array array_len w = some w' ∧
      w'.g = w.g := by
  cases ht : __LOG_XB_test w.g source level
  · exact ⟨w, __LOG_XB_expand_fail _ _ _ _ _ _ _ _ _ _ ht, rfl⟩
  · obtain ⟨text, hr, _⟩ := __LOG_XB_render_spec stack array array_len harr
    refine ⟨_, ?_, (log_printf_frame level.eval.val (__FILENAME__ file) line
      (clk w.ticks % 2 ^ 32) "%s: %s\n" [Arg.str msg, Arg.buf text]
      { w with ticks := w.ticks + 1 }).1⟩
    simp [__LOG_XB_expand, ht, hr, log_timestamp_get]

/-- At a call site whose `source` and `level` are single operands of signed
type, the test as C reads it is `admitted`. -/
theorem __LOG_test_eq_admitted (g : Globals) (hg : g.typed) (s l : Int)
    (hl : CType.int.holds l) :
    __LOG_test g (CExpr.operand CType.int s) (CExpr.operand CType.int l) = admitted g s l := by
  rw [Bool.eq_iff_iff, __LOG_test_int g hg CType.int s l hl, admitted_iff]

/-- At such a call site `__LOG_expand` is `__LOG`. -/
theorem __LOG_expand_operands (clk : Clock) (file : String) (line s l : Int)
    (format : String) (args : List Arg) (w : World) (hg : w.g.typed)
    (hl : CType.int.holds l) :
    __LOG_expand clk file line (CExpr.operand CType.int s) (CExpr.operand CType.int l)
        format args w
      = __LOG clk file line s l format args w := by
  have hv : (CExpr.operand CType.int l).eval.val = l := conv_of_holds CType.int l hl
  simp only [__LOG_expand, __LOG, __LOG_test_eq_admitted w.g hg s l hl, hv]

/-- At such a call site `__LOG_XB_expand` is `__LOG_XB`. -/
theorem __LOG_XB_expand_operands (clk : Clock) (stack : Nat → Char) (file : String)
    (line s l : Int) (msg : String) (array : List Nat) (array_len : Int) (w : World)
    (hg : w.g.typed) (hl : CType.int.holds l) :
    __LOG_XB_expand clk stack file line (CExpr.operand CType.int s)
        (CExpr.operand CType.int l) msg array array_len w
      = __LOG_XB clk stack file line s l msg array array_len w := by
  have hv : (CExpr.operand CType.int l).eval.val = l := conv_of_holds CType.int l hl
  simp only [__LOG_XB_expand, __LOG_XB, __LOG_XB_test_operands,
    __LOG_test_eq_admitted w.g hg s l hl, hv]

/-- With a callback installed, `__LOG` enters it once when its test passes and
does nothing when it fails. -/
theorem __LOG_expand_sinkCalls (clk : Clock) (file : String) (line : Int)
    (source level : CExpr) (format : String) (args : List Arg) (w : World)
    (cb : log_callback_t) (hcb : w.g.m_log_callback = some cb) :
    (sinkCalls (__LOG_expand clk file line source level format args w).trace
        = sinkCalls w.trace + 1 ↔ __LOG_test w.g source level = true) ∧
    (__LOG_test w.g source level = false →
      __LOG_expand clk file line source level format args w = w) := by
  refine ⟨?_, __LOG_expand_fail _ _ _ _ _ _ _ _⟩
  cases ht : __LOG_test w.g source level
  · rw [__LOG_expand_fail _ _ _ _ _ _ _ _ ht]; simp
  · rw [__LOG_expand_pass _ _ _ _ _ _ _ _ cb hcb ht]
    simp [sinkCalls_callback_call]

/-- The same for `__LOG_XB`, on an array that holds the bytes read. -/
theorem __LOG_XB_expand_sinkCalls (clk : Clock) (stack : Nat → Char) (file : String)
    (line : Int) (source level : CExpr) (msg : String) (array : List Nat) (array_len : Int)
    (w : World) (cb : log_callback_t) (hcb : w.g.m_log_callback = some cb)
    (harr : min (toU32 array_len) LOG_ARRAY_LEN_MAX ≤ array.length) :
    ∃ w', __LOG_XB_expand clk stack file line source level msg array array_len w = some w' ∧
      (sinkCalls w'.trace = sinkCalls w.trace + 1 ↔ __LOG_XB_test w.g source level = true) ∧
      (__LOG_XB_test w.g source level = false → w' = w) := by
  cases ht : __LOG_XB_test w.g source level
  · exact ⟨w, __LOG_XB_expand_fail _ _ _ _ _ _ _ _ _ _ ht, by simp, fun _ => rfl⟩
  · obtain ⟨text, hr, _⟩ := __LOG_XB_render_spec stack array array_len harr
    exact ⟨_, __LOG_XB_expand_pass _ _ _ _ _ _ _ _ _ _ cb hcb ht text hr,
      by simp [sinkCalls_callback_call], by simp⟩

theorem typed_initial : Globals.initial.typed := by
  refine ⟨?_, ?_, ?_⟩ <;> decide

/-! ## The claims on the macros as written -/

/-- C1, as stated, fails: after `log_init(3, 0xFFFFFFFF, cb)` the threshold is
`-1`; `__LOG(LOG_SRC_APP_1, level, "x")` with `uint32_t level = 0` enters the
callback, although `0 <= -1` does not hold. -/
theorem C1_counterexample :
    (log_init 3 4294967295 (some (log_callback_t.user 1)) World.initial).g.g_log_dbg_lvl
      = -1 ∧
    toU32 LOG_SRC_APP_1 &&&
      (log_init 3 4294967295 (some (log_callback_t.user 1)) World.initial).g.g_log_dbg_msk
      ≠ 0 ∧
    ¬ ((0 : Int) ≤
      (log_init 3 4294967295 (some (log_callback_t.user 1)) World.initial).g.g_log_dbg_lvl) ∧
    (__LOG_expand defaultClock "main.c" 1 (CExpr.operand CType.int LOG_SRC_APP_1)
        (CExpr.operand CType.uint 0) "x" []
        (log_init 3 4294967295 (some (log_callback_t.user 1)) World.initial)).trace
      = [Effect.rtt_init, Effect.sink (log_callback_t.user 1) 0 "main.c" 1 0 "x" []] := by
  decide

/-- C1, amended. With a callback installed and `source` and `level` each a single
operand, `__LOG` and `__LOG_XB` enter the callback once exactly when
`(source & g_log_dbg_msk) != 0` and `level <= g_log_dbg_lvl` in the comparison C
performs, and otherwise do nothing: for a level of signed type the comparison
is the signed one; for a level of unsigned type the threshold is converted to
unsigned, which is the same comparison for a threshold that is not negative.
A signed level equal to the threshold passes and the next level up does not. -/
theorem C1_admission_rule (clk : Clock) (stack : Nat → Char) (file : String) (line : Int)
    (ts : CType) (s l : Int) (u : Nat) (format : String) (args : List Arg) (msg : String)
    (array : List Nat) (array_len : Int) (w : World) (cb : log_callback_t)
    (hcb : w.g.m_log_callback = some cb) (hg : w.g.typed)
    (hl : CType.int.holds l) (hu : u < 2 ^ 32)
    (harr : min (toU32 array_len) LOG_ARRAY_LEN_MAX ≤ array.length) :
    (sinkCalls (__LOG_expand clk file line (CExpr.operand ts s) (CExpr.operand CType.int l)
        format args w).trace = sinkCalls w.trace + 1 ↔
      (toU32 s &&& w.g.g_log_dbg_msk ≠ 0 ∧ l ≤ w.g.g_log_dbg_lvl)) ∧
    (¬ (toU32 s &&& w.g.g_log_dbg_msk ≠ 0 ∧ l ≤ w.g.g_log_dbg_lvl) →
      __LOG_expand clk file line (CExpr.operand ts s) (CExpr.operand CType.int l)
        format args w = w) ∧
    (∃ w', __LOG_XB_expand clk stack file line (CExpr.operand ts s)
          (CExpr.operand CType.int l) msg array array_len w = some w' ∧
      (sinkCalls w'.trace = sinkCalls w.trace + 1 ↔
        (toU32 s &&& w.g.g_log_dbg_msk ≠ 0 ∧ l ≤ w.g.g_log_dbg_lvl)) ∧
      (¬ (toU32 s &&& w.g.g_log_dbg_msk ≠ 0 ∧ l ≤ w.g.g_log_dbg_lvl) → w' = w)) ∧
    (sinkCalls (__LOG_expand clk file line (CExpr.operand ts s) (CExpr.operand CType.uint u)
        format args w).trace = sinkCalls w.trace + 1 ↔
      (toU32 s &&& w.g.g_log_dbg_msk ≠ 0 ∧ u ≤ toU32 w.g.g_log_dbg_lvl)) ∧
    (¬ (toU32 s &&& w.g.g_log_dbg_msk ≠ 0 ∧ u ≤ toU32 w.g.g_log_dbg_lvl) →
      __LOG_expand clk file line (CExpr.operand ts s) (CExpr.operand CType.uint u)
        format args w = w) ∧
    (∃ w', __LOG_XB_expand clk stack file line (CExpr.operand ts s)
          (CExpr.operand CType.uint u) msg array array_len w = some w' ∧
      (sinkCalls w'.trace = sinkCalls w.trace + 1 ↔
        (toU32 s &&& w.g.g_log_dbg_msk ≠ 0 ∧ u ≤ toU32 w.g.g_log_dbg_lvl)) ∧
      (¬ (toU32 s &&& w.g.g_log_dbg_msk ≠ 0 ∧ u ≤ toU32 w.g.g_log_dbg_lvl) → w' = w)) ∧
    (0 ≤ w.g.g_log_dbg_lvl → (u ≤ toU32 w.g.g_log_dbg_lvl ↔ (u : Int) ≤ w.g.g_log_dbg_lvl)) ∧
    (w.g.g_log_dbg_lvl < 0 →
      ((toU32 w.g.g_log_dbg_lvl : Nat) : Int) = w.g.g_log_dbg_lvl + 2 ^ 32) ∧
    (toU32 s &&& w.g.g_log_dbg_msk ≠ 0 →
      sinkCalls (__LOG_expand clk file line (CExpr.operand ts s)
          (CExpr.operand CType.int w.g.g_log_dbg_lvl) format args w).trace
        = sinkCalls w.trace + 1 ∧
      (w.g.g_log_dbg_lvl + 1 < 2 ^ 31 →
        __LOG_expand clk file line (CExpr.operand ts s)
          (CExpr.operand CType.int (w.g.g_log_dbg_lvl + 1)) format args w = w)) := by
  have hI := __LOG_test_int w.g hg ts s l hl
  have hU := __LOG_test_uint w.g hg ts s u hu
  have hXI := __LOG_XB_test_operands w.g ts CType.int s l
  have hXU := __LOG_XB_test_operands w.g ts CType.uint s u
  have nI : ¬ (toU32 s &&& w.g.g_log_dbg_msk ≠ 0 ∧ l ≤ w.g.g_log_dbg_lvl) →
      __LOG_test w.g (CExpr.operand ts s) (CExpr.operand CType.int l) = false := by
    intro h; rw [← hI] at h; simpa using h
  have nU : ¬ (toU32 s &&& w.g.g_log_dbg_msk ≠ 0 ∧ u ≤ toU32 w.g.g_log_dbg_lvl) →
      __LOG_test w.g (CExpr.operand ts s) (CExpr.operand CType.uint u) = false := by
    intro h; rw [← hU] at h; simpa using h
  obtain ⟨hg1, hg2, hg3⟩ := hg
  refine ⟨?_, ?_, ?_, ?_, ?_, ?_, ?_, ?_, ?_⟩
  · rw [← hI]; exact (__LOG_expand_sinkCalls _ _ _ _ _ _ _ _ cb hcb).1
  · intro h; exact __LOG_expand_fail _ _ _ _ _ _ _ _ (nI h)
  · obtain ⟨w', h0, h1, h2⟩ := __LOG_XB_expand_sinkCalls clk stack file line
      (CExpr.operand ts s) (CExpr.operand CType.int l) msg array array_len w cb hcb harr
    rw [hXI] at h1 h2
    exact ⟨w', h0, by rw [← hI]; exact h1, fun h => h2 (nI h)⟩
  · rw [← hU]; exact (__LOG_expand_sinkCalls _ _ _ _ _ _ _ _ cb hcb).1
  · intro h; exact __LOG_expand_fail _ _ _ _ _ _ _ _ (nU h)
  · obtain ⟨w', h0, h1, h2⟩ := __LOG_XB_expand_sinkCalls clk stack file line
      (CExpr.operand ts s) (CExpr.operand CType.uint u) msg array array_len w cb hcb harr
    rw [hXU] at h1 h2
    exact ⟨w', h0, by rw [← hU]; exact h1, fun h => h2 (nU h)⟩
  · intro h0
    unfold toU32
    omega
  · intro h0
    unfold toU32
    omega
  · intro hsrc
    constructor
    · rw [(__LOG_expand_sinkCalls _ _ _ _ _ _ _ _ cb hcb).1,
        __LOG_test_int w.g ⟨hg1, hg2, hg3⟩ ts s _ ⟨hg2, hg3⟩]
      exact ⟨hsrc, le_refl _⟩
    · intro hup
      apply __LOG_expand_fail
      have hiff := __LOG_test_int w.g ⟨hg1, hg2, hg3⟩ ts s (w.g.g_log_dbg_lvl + 1)
        ⟨by omega, hup⟩
      have : ¬ (__LOG_test w.g (CExpr.operand ts s)
          (CExpr.operand CType.int (w.g.g_log_dbg_lvl + 1)) = true) := by
        rw [hiff]; intro h; omega
      simpa using this

/-- C1 amended, in the initial state, at
`__LOG(LOG_SRC_APP_1, LOG_LEVEL_WARN, "hello")`. -/
theorem C1_admission_rule_witness :
    World.initial.g.m_log_callback = some log_callback_t.log_callback_rtt ∧
    World.initial.g.typed ∧
    CType.int.holds LOG_LEVEL_WARN ∧
    min (toU32 3) LOG_ARRAY_LEN_MAX ≤ [0x01, 0xFF, 0x10].length ∧
    (sinkCalls (__LOG_expand defaultClock "main.c" 42 (CExpr.operand CType.int LOG_SRC_APP_1)
        (CExpr.operand CType.int LOG_LEVEL_WARN) "hello" [] World.initial).trace
        = sinkCalls World.initial.trace + 1 ↔
      (toU32 LOG_SRC_APP_1 &&& World.initial.g.g_log_dbg_msk ≠ 0 ∧
        LOG_LEVEL_WARN ≤ World.initial.g.g_log_dbg_lvl)) :=
  ⟨rfl, typed_initial, by constructor <;> decide, by decide,
    (C1_admission_rule defaultClock (fun _ => 'x') "main.c" 42 CType.int LOG_SRC_APP_1
      LOG_LEVEL_WARN 2 "hello" [] "m" [0x01, 0xFF, 0x10] 3 World.initial
      log_callback_t.log_callback_rtt rfl typed_initial (by constructor <;> decide)
      (by decide) (by decide)).1⟩

/-- C10. The initialisers give the mask `LOG_GROUP_STACK = 3`, the threshold
`LOG_LEVEL_WARN = 2`, the callback `log_callback_rtt` and a clear init flag.
In that state `__LOG(LOG_SRC_APP_3 | 8, LOG_LEVEL_ERROR, "x")` is admitted and
enters the callback, although the source `12` has neither bit 0 nor bit 1: the
macro tests `LOG_SRC_APP_3 | 8 & g_log_dbg_msk`, which C reads as
`LOG_SRC_APP_3 | (8 & g_log_dbg_msk)`.  With the source a single operand, a
record is admitted exactly when the source has bit 0 or bit 1 and the level is
at most 2. -/
theorem C10_default_state :
    World.initial.g.g_log_dbg_msk = 3 ∧
    toU32 LOG_GROUP_STACK = 3 ∧
    LOG_GROUP_STACK = Int.lor LOG_SRC_APP_1 LOG_SRC_APP_2 ∧
    World.initial.g.g_log_dbg_lvl = 2 ∧ LOG_LEVEL_WARN = 2 ∧
    World.initial.g.m_log_callback = some log_callback_t.log_callback_rtt ∧
    World.initial.g.g_segger_init_flag = 0 ∧
    World.initial.trace = [] ∧
    (CExpr.binary Operator.bor (CExpr.operand CType.int LOG_SRC_APP_3)
      (CExpr.operand CType.int 8)).eval.val = 12 ∧
    (toU32 12).testBit 0 = false ∧ (toU32 12).testBit 1 = false ∧
    toU32 12 &&& World.initial.g.g_log_dbg_msk = 0 ∧
    __LOG_test World.initial.g
      (CExpr.binary Operator.bor (CExpr.operand CType.int LOG_SRC_APP_3)
        (CExpr.operand CType.int 8))
      (CExpr.operand CType.int LOG_LEVEL_ERROR) = true ∧
    sinkCalls (__LOG_expand defaultClock "main.c" 1
      (CExpr.binary Operator.bor (CExpr.operand CType.int LOG_SRC_APP_3)
        (CExpr.operand CType.int 8))
      (CExpr.operand CType.int LOG_LEVEL_ERROR) "x" [] World.initial).trace = 1 ∧
    __LOG_test World.initial.g (CExpr.operand CType.int 12)
      (CExpr.operand CType.int LOG_LEVEL_ERROR) = false ∧
    (∀ (ts : CType) (s l : Int), CType.int.holds l →
      (__LOG_test World.initial.g (CExpr.operand ts s) (CExpr.operand CType.int l) = true ↔
        (((toU32 s).testBit 0 = true ∨ (toU32 s).testBit 1 = true) ∧ l ≤ 2))) := by
  have hm : World.initial.g.g_log_dbg_msk = 3 := by decide
  have hl : World.initial.g.g_log_dbg_lvl = 2 := by decide
  refine ⟨hm, by decide, rfl, hl, rfl, rfl, rfl, rfl, by decide, by decide, by decide,
    by decide, by decide, by decide, by decide, ?_⟩
  intro ts s l hrange
  rw [__LOG_test_int World.initial.g typed_initial ts s l hrange, hm, hl, and_three_ne_zero]

/-- C14, as stated, fails: with the threshold `-1` the record of
`__LOG(LOG_SRC_APP_2, level, "late")` with `uint32_t level = 3` is a rejected
one (`3 <= -1` does not hold), and yet the callback is entered. -/
theorem C14_counterexample :
    (log_init 2 4294967295 (some (log_callback_t.user 2)) World.initial).g.g_log_dbg_lvl
      = -1 ∧
    ¬ ((3 : Int) ≤
      (log_init 2 4294967295 (some (log_callback_t.user 2)) World.initial).g.g_log_dbg_lvl) ∧
    sinkCalls (log_init 2 4294967295 (some (log_callback_t.user 2)) World.initial).trace
      = 0 ∧
    sinkCalls (__LOG_expand defaultClock "main.c" 9 (CExpr.operand CType.int LOG_SRC_APP_2)
        (CExpr.operand CType.uint 3) "late" []
        (log_init 2 4294967295 (some (log_callback_t.user 2)) World.initial)).trace = 1 := by
  decide

/-- C14, amended. `__LOG`, `__LOG_XB`, `log_printf` and `log_vprintf` leave
mask, threshold, callback and init flag as they were, whatever the arguments
and whether the test passes or not; a call whose test fails leaves the whole
world as it was, so no callback is entered and nothing is printed.  For
`source` and `level` single operands the test fails exactly when
`(source & g_log_dbg_msk) == 0` or the level is above the threshold in the
comparison C performs: signed for a signed level, with the threshold converted
to unsigned for an unsigned level. -/
theorem C14_logging_frame (clk : Clock) (stack : Nat → Char) (file : String) (line : Int)
    (source level : CExpr) (format : String) (args : List Arg) (msg : String)
    (array : List Nat) (array_len : Int) (w : World)
    (harr : min (toU32 array_len) LOG_ARRAY_LEN_MAX ≤ array.length) :
    (__LOG_expand clk file line source level format args w).g = w.g ∧
    (∃ w', __LOG_XB_expand clk stack file line source level msg array array_len w = some w' ∧
      w'.g = w.g ∧
      (__LOG_XB_test w.g source level = false → w' = w)) ∧
    (__LOG_test w.g source level = false →
      __LOG_expand clk file line source level format args w = w ∧
      sinkCalls (__LOG_expand clk file line source level format args w).trace
        = sinkCalls w.trace) ∧
    (∀ (dbg_level : Nat) (p_filename : String) (n timestamp : Nat),
      (log_printf dbg_level p_filename n timestamp format args w).g = w.g ∧
      (log_vprintf dbg_level p_filename n timestamp format args w).g = w.g) ∧
    (w.g.typed → ∀ (ts : CType) (s l : Int), CType.int.holds l →
      (__LOG_test w.g (CExpr.operand ts s) (CExpr.operand CType.int l) = false ↔
        ¬ (toU32 s &&& w.g.g_log_dbg_msk ≠ 0 ∧ l ≤ w.g.g_log_dbg_lvl)) ∧
      (__LOG_XB_test w.g (CExpr.operand ts s) (CExpr.operand CType.int l) = false ↔
        ¬ (toU32 s &&& w.g.g_log_dbg_msk ≠ 0 ∧ l ≤ w.g.g_log_dbg_lvl))) ∧
    (w.g.typed → ∀ (ts : CType) (s : Int) (u : Nat), u < 2 ^ 32 →
      (__LOG_test w.g (CExpr.operand ts s) (CExpr.operand CType.uint u) = false ↔
        ¬ (toU32 s &&& w.g.g_log_dbg_msk ≠ 0 ∧ u ≤ toU32 w.g.g_log_dbg_lvl)) ∧
      (__LOG_XB_test w.g (CExpr.operand ts s) (CExpr.operand CType.uint u) = false ↔
        ¬ (toU32 s &&& w.g.g_log_dbg_msk ≠ 0 ∧ u ≤ toU32 w.g.g_log_dbg_lvl))) := by
  refine ⟨__LOG_expand_frame _ _ _ _ _ _ _ _, ?_, ?_, ?_, ?_, ?_⟩
  · cases ht : __LOG_XB_test w.g source level
    · exact ⟨w, __LOG_XB_expand_fail _ _ _ _ _ _ _ _ _ _ ht, rfl, fun _ => rfl⟩
    · obtain ⟨w', h0, h1⟩ := __LOG_XB_expand_frame clk stack file line source level msg
        array array_len w harr
      exact ⟨w', h0, h1, fun h => by cases h⟩
  · intro ht
    have hrej := __LOG_expand_fail clk file line source level format args w ht
    exact ⟨hrej, by rw [hrej]⟩
  · intro dbg_level p_filename n timestamp
    exact ⟨(log_printf_frame _ _ _ _ _ _ _).1, (log_vprintf_frame _ _ _ _ _ _ _).1⟩
  · intro hg ts s l hl
    have h := __LOG_test_int w.g hg ts s l hl
    rw [__LOG_XB_test_operands, ← h]
    simp
  · intro hg ts s u hu
    have h := __LOG_test_uint w.g hg ts s u hu
    rw [__LOG_XB_test_operands, ← h]
    simp

/-- C14 amended, in the initial state, for `__LOG(LOG_SRC_APP_1 | LOG_SRC_APP_3,
LOG_LEVEL_ERROR, "x")` and an array of two bytes. -/
theorem C14_logging_frame_witness :
    min (toU32 2) LOG_ARRAY_LEN_MAX ≤ [0xAB, 0xCD].length ∧
    (__LOG_expand defaultClock "main.c" 8
      (CExpr.binary Operator.bor (CExpr.operand CType.int LOG_SRC_APP_1)
        (CExpr.operand CType.int LOG_SRC_APP_3))
      (CExpr.operand CType.int LOG_LEVEL_ERROR) "x" [] World.initial).g
      = World.initial.g :=
  ⟨by decide,
   (C14_logging_frame defaultClock (fun _ => 'x') "main.c" 8
      (CExpr.binary Operator.bor (CExpr.operand CType.int LOG_SRC_APP_1)
        (CExpr.operand CType.int LOG_SRC_APP_3))
      (CExpr.operand CType.int LOG_LEVEL_ERROR) "x" [] "key" [0xAB, 0xCD] 2 World.initial
      (by decide)).1⟩

end LogUltra
